import Mathlib

/-!
Formal model of the splatter-mcp-app core: the PLY Gaussian-splat validator
(services/plySplatValidation), the temporary artifact store
(services/tempArtifactStore), and the image-generation job manager
(routes/imageGenerationJobs), together with theorems settling the
specification claims C1-C10.

Modelling conventions:
* Bytes are `List Nat`; the JS strings handled by the validator are lists of
  Unicode scalar values (`List Nat`) produced by a WHATWG TextDecoder model
  (`utf8Decode`), with U+FFFD substitution for encoding errors.
* The file system is an association list from path to content; paths are taken
  relative to the artifact directory (the path join with the directory is
  elided, `isAbsolute`/`resolve` handling is out of scope).
* A sidecar file written by `writeArtifactMetadataToDisk` holds the JSON
  serialization of a `StoredArtifact`; the model stores the record itself
  (`FileContent.meta`) since `JSON.stringify`/`JSON.parse` round-trips every
  field, plus a `junk` constructor for unparseable sidecar content.
* `Date.now()` and `randomUUID()` results are passed in as explicit
  parameters (`now`, `id`).
-/

deriving instance DecidableEq for Except

namespace SplatSpec

/-! ## Small helpers over association lists (JS `Map` and the directory) -/

/-- Lookup of the first binding of a key, as `Map.get` / a file read by path. -/
def lookupKey {α : Type} (l : List (String × α)) (k : String) : Option α :=
  (l.find? (fun e => e.1 = k)).map (fun e => e.2)

/-- `Map.set` / `writeFile`: replace the binding in place, else append. -/
def setKey {α : Type} : List (String × α) → String → α → List (String × α)
  | [], k, v => [(k, v)]
  | e :: rest, k, v => if e.1 = k then (k, v) :: rest else e :: setKey rest k v

/-- `Map.delete` / `rm force`: drop every binding of the key. -/
def eraseKey {α : Type} (l : List (String × α)) (k : String) : List (String × α) :=
  l.filter (fun e => e.1 ≠ k)

/-- JS `Set.add`: append the element unless it is already present. -/
def addToSet {α : Type} [DecidableEq α] (l : List α) (x : α) : List α :=
  if x ∈ l then l else l ++ [x]

/-! ## WHATWG UTF-8 decoding with replacement (TextDecoder "utf-8") -/

/-- A UTF-8 continuation byte. -/
def isContinuationByte (b : Nat) : Bool := 0x80 ≤ b && b ≤ 0xBF

/-- Fuel-driven WHATWG UTF-8 decoder: emits Unicode scalar values, with
U+FFFD replacement for invalid sequences (restarting at the offending byte)
and a single U+FFFD for a truncated sequence at end of input. The fuel is the
input length; every step consumes at least one byte. -/
def utf8DecodeAux : Nat → List Nat → List Nat
  | 0, _ => []
  | _, [] => []
  | fuel + 1, b :: rest =>
    if b < 0x80 then b :: utf8DecodeAux fuel rest
    else if 0xC2 ≤ b && b ≤ 0xDF then
      match rest with
      | [] => [0xFFFD]
      | c1 :: rest1 =>
        if isContinuationByte c1 then
          ((b - 0xC0) * 0x40 + (c1 - 0x80)) :: utf8DecodeAux fuel rest1
        else 0xFFFD :: utf8DecodeAux fuel rest
    else if 0xE0 ≤ b && b ≤ 0xEF then
      match rest with
      | [] => [0xFFFD]
      | c1 :: rest1 =>
        let lo1 := if b = 0xE0 then 0xA0 else 0x80
        let hi1 := if b = 0xED then 0x9F else 0xBF
        if lo1 ≤ c1 && c1 ≤ hi1 then
          match rest1 with
          | [] => [0xFFFD]
          | c2 :: rest2 =>
            if isContinuationByte c2 then
              ((b - 0xE0) * 0x1000 + (c1 - 0x80) * 0x40 + (c2 - 0x80)) ::
                utf8DecodeAux fuel rest2
            else 0xFFFD :: utf8DecodeAux fuel rest1
        else 0xFFFD :: utf8DecodeAux fuel rest
    else if 0xF0 ≤ b && b ≤ 0xF4 then
      match rest with
      | [] => [0xFFFD]
      | c1 :: rest1 =>
        let lo1 := if b = 0xF0 then 0x90 else 0x80
        let hi1 := if b = 0xF4 then 0x8F else 0xBF
        if lo1 ≤ c1 && c1 ≤ hi1 then
          match rest1 with
          | [] => [0xFFFD]
          | c2 :: rest2 =>
            if isContinuationByte c2 then
              match rest2 with
              | [] => [0xFFFD]
              | c3 :: rest3 =>
                if isContinuationByte c3 then
                  ((b - 0xF0) * 0x40000 + (c1 - 0x80) * 0x1000 +
                      (c2 - 0x80) * 0x40 + (c3 - 0x80)) :: utf8DecodeAux fuel rest3
                else 0xFFFD :: utf8DecodeAux fuel rest2
            else 0xFFFD :: utf8DecodeAux fuel rest1
        else 0xFFFD :: utf8DecodeAux fuel rest
    else 0xFFFD :: utf8DecodeAux fuel rest

/-- `new TextDecoder("utf-8").decode(bytes)` as Unicode scalar values. -/
def utf8Decode (bytes : List Nat) : List Nat :=
  utf8DecodeAux bytes.length bytes

/-- The scalar values of an ASCII Lean string literal (used to model the
string constants of the source). -/
def strScalars (s : String) : List Nat := s.data.map Char.toNat

/-- The exact UTF-8 bytes of an ASCII string (used to build byte inputs). -/
def strBytes (s : String) : List Nat := s.data.map Char.toNat

/-! ## plySplatValidation.ts -/

/-- JS `\s` / `trim` whitespace, by scalar value. -/
def isJsWhitespace (c : Nat) : Bool :=
  c = 0x9 || c = 0xA || c = 0xB || c = 0xC || c = 0xD || c = 0x20 ||
  c = 0xA0 || c = 0x1680 || (0x2000 ≤ c && c ≤ 0x200A) ||
  c = 0x2028 || c = 0x2029 || c = 0x202F || c = 0x205F || c = 0x3000 || c = 0xFEFF

/-- `text.split("\n")`. -/
def splitOnNewline : List Nat → List (List Nat)
  | [] => [[]]
  | c :: rest =>
    let r := splitOnNewline rest
    if c = 0xA then [] :: r
    else
      match r with
      | h :: t => (c :: h) :: t
      | [] => [[c]]

/-- `line.trim()`: strip leading and trailing JS whitespace. -/
def trimWs (l : List Nat) : List Nat :=
  ((l.dropWhile isJsWhitespace).reverse.dropWhile isJsWhitespace).reverse

/-- Accumulating maximal runs of non-whitespace scalars. -/
def wordsAux : List Nat → List Nat → List (List Nat)
  | [], current => if current = [] then [] else [current.reverse]
  | c :: rest, current =>
    if isJsWhitespace c then
      if current = [] then wordsAux rest [] else current.reverse :: wordsAux rest []
    else wordsAux rest (c :: current)

/-- `parseHeaderLineTokens`: `trim`, split on whitespace runs, drop empty
tokens — equivalently the whitespace-separated words of the line. -/
def parseHeaderLineTokens (headerLine : List Nat) : List (List Nat) :=
  wordsAux headerLine []

/-- Parsed PLY header state: declared format plus declared `vertex` property
names (`Set<string>` modelled as an insertion-ordered duplicate-free list). -/
structure ParsedPlyHeader where
  format : List Nat
  vertexPropertyNames : List (List Nat)
deriving DecidableEq

/-- `MINIMUM_HEADER_SCAN_BYTES` in plySplatValidation.ts. -/
def MINIMUM_HEADER_SCAN_BYTES : Nat := 64000

/-- The line-scanning loop of `parsePlyHeader`. -/
def parsePlyHeaderLines :
    List (List Nat) → List Nat → Option (List Nat) → List (List Nat) → ParsedPlyHeader
  | [], formatName, _, vertexPropertyNames => ⟨formatName, vertexPropertyNames⟩
  | rawHeaderLine :: rest, formatName, activeElementName, vertexPropertyNames =>
    let trimmedHeaderLine := trimWs rawHeaderLine
    if trimmedHeaderLine = strScalars "end_header" then
      ⟨formatName, vertexPropertyNames⟩
    else if (strScalars "format ").isPrefixOf trimmedHeaderLine then
      parsePlyHeaderLines rest ((parseHeaderLineTokens trimmedHeaderLine).getD 1 [])
        activeElementName vertexPropertyNames
    else if (strScalars "element ").isPrefixOf trimmedHeaderLine then
      parsePlyHeaderLines rest formatName
        ((parseHeaderLineTokens trimmedHeaderLine).get? 1) vertexPropertyNames
    else if (strScalars "property ").isPrefixOf trimmedHeaderLine &&
        activeElementName = some (strScalars "vertex") then
      match (parseHeaderLineTokens trimmedHeaderLine).getLast? with
      | some propertyName =>
        parsePlyHeaderLines rest formatName activeElementName
          (addToSet vertexPropertyNames propertyName)
      | none => parsePlyHeaderLines rest formatName activeElementName vertexPropertyNames
    else parsePlyHeaderLines rest formatName activeElementName vertexPropertyNames

/-- `parsePlyHeader`: decode at most the first 64000 bytes as UTF-8, split into
lines, and scan until `end_header`. -/
def parsePlyHeader (plyBytes : List Nat) : ParsedPlyHeader :=
  parsePlyHeaderLines
    (splitOnNewline (utf8Decode (plyBytes.take MINIMUM_HEADER_SCAN_BYTES)))
    [] none []

/-- `buildMissingPropertyList`. -/
def buildMissingPropertyList (vertexPropertyNames : List (List Nat))
    (requiredPropertyNames : List (List Nat)) : List (List Nat) :=
  requiredPropertyNames.filter (fun requiredName => !vertexPropertyNames.contains requiredName)

/-- The required vertex properties of a Gaussian-splat PLY. -/
def requiredSplatPropertyNames : List (List Nat) :=
  [strScalars "x", strScalars "y", strScalars "z", strScalars "opacity",
   strScalars "scale_0", strScalars "scale_1", strScalars "scale_2",
   strScalars "rot_0", strScalars "rot_1", strScalars "rot_2", strScalars "rot_3"]

/-- The validation failures thrown by `validateLikelyGaussianSplatPly`
(each `throw new Error(...)` becomes a constructor; the missing-properties
error carries the names listed in its message). -/
inductive PlyValidationError where
  /-- Header must start with ply. -/
  | notPly : PlyValidationError
  /-- PLY format is not binary_little_endian. -/
  | unsupportedFormat : PlyValidationError
  /-- Missing required vertex properties, in required-list order. -/
  | missingProperties (missingPropertyNames : List (List Nat)) : PlyValidationError
deriving DecidableEq

/-- `validateLikelyGaussianSplatPly`: magic check on the first 16 bytes,
format check, then required-property check. -/
def validateLikelyGaussianSplatPly (plyBytes : List Nat) : Except PlyValidationError Unit :=
  let headerPreviewText := utf8Decode (plyBytes.take 16)
  if !(strScalars "ply").isPrefixOf headerPreviewText then
    .error .notPly
  else
    let parsedHeader := parsePlyHeader plyBytes
    if parsedHeader.format ≠ strScalars "binary_little_endian" then
      .error .unsupportedFormat
    else
      let missingPropertyNames :=
        buildMissingPropertyList parsedHeader.vertexPropertyNames requiredSplatPropertyNames
      if missingPropertyNames.length > 0 then
        .error (.missingProperties missingPropertyNames)
      else
        .ok ()

/-! ## tempArtifactStore.ts -/

/-- `StoredArtifact` (types/splat). -/
structure StoredArtifact where
  artifactId : String
  absoluteFilePath : String
  expiresAtUnixMs : Nat
  mimeType : String
  fileSizeBytes : Nat
  displayName : String
deriving DecidableEq

/-- Content of a file in the artifact directory: raw artifact bytes, a sidecar
record (the JSON serialization of a `StoredArtifact`), or unparseable text. -/
inductive FileContent where
  | bytes (content : List Nat) : FileContent
  | meta (record : StoredArtifact) : FileContent
  | junk : FileContent
deriving DecidableEq

/-- The store state: the in-memory `artifactRegistryById` map and the artifact
directory contents keyed by file name. -/
structure StoreState where
  registry : List (String × StoredArtifact)
  disk : List (String × FileContent)
deriving DecidableEq

/-- `ARTIFACT_METADATA_FILE_SUFFIX`. -/
def metaSuffix : String := ".meta.json"

/-- `str.startsWith(p)`. -/
def stringStartsWith (s p : String) : Bool := p.data.isPrefixOf s.data

/-- `str.endsWith(suffix)`. -/
def stringEndsWith (s suffix : String) : Bool :=
  suffix.data.reverse.isPrefixOf s.data.reverse

/-- `str.slice(0, -n)`. -/
def stringDropRight (s : String) (n : Nat) : String :=
  String.mk (s.data.take (s.data.length - n))

/-- `buildMetadataFilePath` (relative to the artifact directory). -/
def metadataFileName (artifactIdentifier : String) : String :=
  artifactIdentifier ++ metaSuffix

/-- The normalized file extension of `createArtifactFromBytes`. -/
def normalizeExtension (fileExtension : String) : String :=
  if stringStartsWith fileExtension "." then fileExtension else "." ++ fileExtension

/-- The backing-file name `id + normalizedExtension` chosen by
`createArtifactFromBytes` (relative to the artifact directory). -/
def dataFileName (artifactIdentifier fileExtension : String) : String :=
  artifactIdentifier ++ normalizeExtension fileExtension

/-- `readArtifactMetadataFromDisk`: read and parse the sidecar, rebuilding the
id from the file name; any read/parse/shape failure yields `none`. -/
def readArtifactMetadataFromDisk (s : StoreState) (artifactIdentifier : String) :
    Option StoredArtifact :=
  match lookupKey s.disk (metadataFileName artifactIdentifier) with
  | some (.meta record) => some { record with artifactId := artifactIdentifier }
  | _ => none

/-- The shared `registry.get(id) ?? await readArtifactMetadataFromDisk(id)`
pattern of `deleteArtifact` and `getArtifactIfAvailable`. -/
def resolveStoredArtifact (s : StoreState) (artifactIdentifier : String) :
    Option StoredArtifact :=
  match lookupKey s.registry artifactIdentifier with
  | some a => some a
  | none => readArtifactMetadataFromDisk s artifactIdentifier

/-- `deleteArtifact`: resolve the record from memory or sidecar, drop the
in-memory entry, force-remove the backing file (when a record was found) and
the sidecar file. -/
def deleteArtifact (s : StoreState) (artifactIdentifier : String) : StoreState :=
  let storedArtifact := resolveStoredArtifact s artifactIdentifier
  let s1 : StoreState := { s with registry := eraseKey s.registry artifactIdentifier }
  let s2 : StoreState :=
    match storedArtifact with
    | some a => { s1 with disk := eraseKey s1.disk a.absoluteFilePath }
    | none => s1
  { s2 with disk := eraseKey s2.disk (metadataFileName artifactIdentifier) }

/-- `getArtifactIfAvailable`: memory hit or sidecar hydration, then expiry
check (expired entries are deleted), then a `stat` existence check on the
backing file (a missing file evicts the in-memory record). -/
def getArtifactIfAvailable (s : StoreState) (artifactIdentifier : String) (now : Nat) :
    Option StoredArtifact × StoreState :=
  match resolveStoredArtifact s artifactIdentifier with
  | none => (none, s)
  | some a =>
    let s1 : StoreState := { s with registry := setKey s.registry artifactIdentifier a }
    if a.expiresAtUnixMs ≤ now then
      (none, deleteArtifact s1 a.artifactId)
    else
      match lookupKey s1.disk a.absoluteFilePath with
      | some _ => (some a, s1)
      | none => (none, { s1 with registry := eraseKey s1.registry a.artifactId })

/-- `readArtifactBytes`: `get` then read the backing file; an ENOENT read
(race with external deletion) evicts the in-memory record and reports
not-found. Reading a file that is not raw artifact bytes would return its
text bytes; that content is not byte-modelled (empty list placeholder), and
no claim exercises it. -/
def readArtifactBytes (s : StoreState) (artifactIdentifier : String) (now : Nat) :
    Option (List Nat) × StoreState :=
  match getArtifactIfAvailable s artifactIdentifier now with
  | (none, s1) => (none, s1)
  | (some a, s1) =>
    match lookupKey s1.disk a.absoluteFilePath with
    | some (.bytes content) => (some content, s1)
    | some _ => (some [], s1)
    | none => (none, { s1 with registry := eraseKey s1.registry artifactIdentifier })

/-- Which awaited write of `createArtifactFromBytes` fails (none on the happy
path): the backing-file `writeFile` or the sidecar `writeFile`. -/
inductive CreateFault where
  | none : CreateFault
  | fileWrite : CreateFault
  | metaWrite : CreateFault
deriving DecidableEq

/-- `createArtifactFromBytes`: write the backing file, register the record in
memory, then write the sidecar. A failing `writeFile` rejects at its await
point, so a sidecar-write failure leaves the backing file and the in-memory
record behind (there is no rollback in the source). -/
def createArtifactFromBytes (s : StoreState) (artifactIdentifier : String)
    (artifactBytes : List Nat) (fileExtension mimeType displayName : String)
    (now ttlMs : Nat) (fault : CreateFault) : Except Unit StoredArtifact × StoreState :=
  let artifactFilePath := dataFileName artifactIdentifier fileExtension
  match fault with
  | .fileWrite => (.error (), s)
  | .none | .metaWrite =>
    let sFile : StoreState :=
      { s with disk := setKey s.disk artifactFilePath (.bytes artifactBytes) }
    let storedArtifact : StoredArtifact :=
      { artifactId := artifactIdentifier
        absoluteFilePath := artifactFilePath
        expiresAtUnixMs := now + ttlMs
        mimeType := mimeType
        fileSizeBytes := artifactBytes.length
        displayName := displayName }
    let sReg : StoreState :=
      { sFile with registry := setKey sFile.registry artifactIdentifier storedArtifact }
    match fault with
    | .metaWrite => (.error (), sReg)
    | _ =>
      (.ok storedArtifact,
        { sReg with
            disk := setKey sReg.disk (metadataFileName artifactIdentifier)
              (.meta storedArtifact) })

/-- Phase 1 of `deleteExpiredArtifacts`: expired ids from the in-memory map. -/
def collectRegistryExpired (s : StoreState) (now : Nat) : List String :=
  s.registry.foldl
    (fun acc e => if e.2.expiresAtUnixMs ≤ now then addToSet acc e.1 else acc) []

/-- Phase 2 of `deleteExpiredArtifacts`: scan the directory listing for sidecar
files whose record is expired, skipping ids already collected. -/
def collectDiskExpired : List String → StoreState → Nat → List String → List String
  | [], _, _, acc => acc
  | fileName :: rest, s, now, acc =>
    if stringEndsWith fileName metaSuffix then
      let artifactIdentifier := stringDropRight fileName metaSuffix.length
      if acc.contains artifactIdentifier then collectDiskExpired rest s now acc
      else
        match readArtifactMetadataFromDisk s artifactIdentifier with
        | some diskMetadata =>
          if diskMetadata.expiresAtUnixMs ≤ now then
            collectDiskExpired rest s now (addToSet acc artifactIdentifier)
          else collectDiskExpired rest s now acc
        | none => collectDiskExpired rest s now acc
    else collectDiskExpired rest s now acc

/-- `deleteExpiredArtifacts`: delete the union of in-memory expired ids and
sidecar-derived expired ids. -/
def deleteExpiredArtifacts (s : StoreState) (now : Nat) : StoreState :=
  let artifactIdentifiersToDelete :=
    collectDiskExpired (s.disk.map (fun e => e.1)) s now (collectRegistryExpired s now)
  artifactIdentifiersToDelete.foldl (fun st artifactIdentifier =>
    deleteArtifact st artifactIdentifier) s

/-- One directory entry of `hydrateArtifactRegistryFromDisk`: non-sidecar names
are skipped; unparseable sidecars are removed; expired or file-less records are
deleted; valid records are registered. -/
def hydrateStep (s : StoreState) (fileName : String) (now : Nat) : StoreState :=
  if stringEndsWith fileName metaSuffix then
    let artifactIdentifier := stringDropRight fileName metaSuffix.length
    match readArtifactMetadataFromDisk s artifactIdentifier with
    | none => { s with disk := eraseKey s.disk fileName }
    | some diskMetadata =>
      if diskMetadata.expiresAtUnixMs ≤ now then deleteArtifact s artifactIdentifier
      else
        match lookupKey s.disk diskMetadata.absoluteFilePath with
        | some _ => { s with registry := setKey s.registry artifactIdentifier diskMetadata }
        | none => deleteArtifact s artifactIdentifier
  else s

/-- The loop of `hydrateArtifactRegistryFromDisk` over the directory listing
snapshot. -/
def hydrateLoop : List String → StoreState → Nat → StoreState
  | [], s, _ => s
  | fileName :: rest, s, now => hydrateLoop rest (hydrateStep s fileName now) now

/-- `hydrateArtifactRegistryFromDisk`. -/
def hydrateArtifactRegistryFromDisk (s : StoreState) (now : Nat) : StoreState :=
  hydrateLoop (s.disk.map (fun e => e.1)) s now

/-- `initialize`: `mkdir` and the cleanup timer are not modelled; the
observable effect is the registry hydration. -/
def initializeStore (s : StoreState) (now : Nat) : StoreState :=
  hydrateArtifactRegistryFromDisk s now

/-- `buildPublicArtifactUrl` with no configured base URL. -/
def buildPublicArtifactUrl (artifactIdentifier : String) : String :=
  "/artifacts/" ++ artifactIdentifier

/-! ## routes/imageGenerationJobs.ts -/

/-- `ImageGenerationJobStatus`. -/
inductive JobStatus where
  | queued : JobStatus
  | running : JobStatus
  | succeeded : JobStatus
  | failed : JobStatus
deriving DecidableEq

/-- Terminal statuses per the state machine. -/
def isTerminalJobStatus : JobStatus → Bool
  | .succeeded => true
  | .failed => true
  | _ => false

/-- `ImageGenerationJobRecord` (gpuTier kept as its string value; a record
only ever holds one of the five allowed values). -/
structure ImageGenerationJobRecord where
  jobId : String
  status : JobStatus
  createdAtUnixMs : Nat
  updatedAtUnixMs : Nat
  expiresAtUnixMs : Nat
  imageArtifactId : String
  displayName : String
  gpuTier : String
  errorMessage : Option String
  outputArtifactId : Option String
  outputArtifactUrl : Option String
  outputDisplayName : Option String
  outputFileSizeBytes : Option Nat
deriving DecidableEq

/-- `Partial<ImageGenerationJobRecord>`: a field is updated exactly when its
outer `Option` is `some` (`updatedAtUnixMs` is always overwritten by
`updateJobStatus` itself, so it carries no field here). -/
structure JobUpdate where
  jobId : Option String := none
  status : Option JobStatus := none
  createdAtUnixMs : Option Nat := none
  expiresAtUnixMs : Option Nat := none
  imageArtifactId : Option String := none
  displayName : Option String := none
  gpuTier : Option String := none
  errorMessage : Option (Option String) := none
  outputArtifactId : Option (Option String) := none
  outputArtifactUrl : Option (Option String) := none
  outputDisplayName : Option (Option String) := none
  outputFileSizeBytes : Option (Option Nat) := none
deriving DecidableEq

/-- The record produced by `{ ...existing, ...partial, updatedAtUnixMs: now }`. -/
def applyJobUpdate (existing : ImageGenerationJobRecord) (u : JobUpdate) (now : Nat) :
    ImageGenerationJobRecord :=
  { jobId := u.jobId.getD existing.jobId
    status := u.status.getD existing.status
    createdAtUnixMs := u.createdAtUnixMs.getD existing.createdAtUnixMs
    updatedAtUnixMs := now
    expiresAtUnixMs := u.expiresAtUnixMs.getD existing.expiresAtUnixMs
    imageArtifactId := u.imageArtifactId.getD existing.imageArtifactId
    displayName := u.displayName.getD existing.displayName
    gpuTier := u.gpuTier.getD existing.gpuTier
    errorMessage := u.errorMessage.getD existing.errorMessage
    outputArtifactId := u.outputArtifactId.getD existing.outputArtifactId
    outputArtifactUrl := u.outputArtifactUrl.getD existing.outputArtifactUrl
    outputDisplayName := u.outputDisplayName.getD existing.outputDisplayName
    outputFileSizeBytes := u.outputFileSizeBytes.getD existing.outputFileSizeBytes }

/-- The in-memory `imageGenerationJobsById` map. -/
abbrev JobMap := List (String × ImageGenerationJobRecord)

/-- `updateJobStatus`: merge the partial update over the existing record and
stamp `updatedAtUnixMs`; a silent no-op when the job is absent. There is no
guard on terminal statuses. -/
def updateJobStatus (jobs : JobMap) (jobId : String) (partialJobUpdate : JobUpdate)
    (now : Nat) : JobMap :=
  match lookupKey jobs jobId with
  | none => jobs
  | some existingJobRecord =>
    setKey jobs jobId (applyJobUpdate existingJobRecord partialJobUpdate now)

/-- `cleanupExpiredImageGenerationJobs`: drop jobs with `expiresAtUnixMs ≤ now`. -/
def cleanupExpiredImageGenerationJobs (jobs : JobMap) (now : Nat) : JobMap :=
  jobs.filter (fun e => !decide (e.2.expiresAtUnixMs ≤ now))

/-- An `unknown` JSON body field: a string, or any non-string value (number,
boolean, null, object, or an absent field) — the routes only ever test
`typeof x === "string"` before using a field, so non-strings are
indistinguishable from one another. -/
inductive JsValue where
  | str (s : String) : JsValue
  | nonString : JsValue
deriving DecidableEq

/-- `StartImageGenerationJobRequestBody`. -/
structure StartRequestBody where
  imageArtifactId : JsValue
  displayName : JsValue
  gpuTier : JsValue
deriving DecidableEq

/-- `Char`-level JS whitespace, for `String.trim`. -/
def isJsWhitespaceChar (c : Char) : Bool := isJsWhitespace c.toNat

/-- JS `String.prototype.trim`. -/
def jsTrim (s : String) : String :=
  String.mk (((s.data.dropWhile isJsWhitespaceChar).reverse.dropWhile
    isJsWhitespaceChar).reverse)

/-- `resolveDisplayName`. -/
def resolveDisplayName (requestedDisplayNameValue : JsValue)
    (imageArtifactDisplayName : String) : String :=
  match requestedDisplayNameValue with
  | .str s => if 0 < (jsTrim s).length then jsTrim s else imageArtifactDisplayName
  | .nonString => imageArtifactDisplayName

/-- `allowedGpuTierValues`. -/
def allowedGpuTierValues : List String := ["t4", "l4", "a10", "a100", "h100"]

/-- `DEFAULT_IMAGE_GENERATION_GPU_TIER`. -/
def DEFAULT_IMAGE_GENERATION_GPU_TIER : String := "l4"

/-- `resolveGpuTier`: a string in the allowed set is used as-is; anything else
silently falls back to the default tier. -/
def resolveGpuTier (requestedGpuTierValue : JsValue) : String :=
  match requestedGpuTierValue with
  | .str s => if allowedGpuTierValues.contains s then s else DEFAULT_IMAGE_GENERATION_GPU_TIER
  | .nonString => DEFAULT_IMAGE_GENERATION_GPU_TIER

/-- The response of `POST /jobs/image-to-splat`: 400, 404, or 202 with the
queued job snapshot. -/
inductive StartJobResponse where
  | badRequest (errorMessage : String) : StartJobResponse
  | notFound (errorMessage : String) : StartJobResponse
  | accepted (job : ImageGenerationJobRecord) : StartJobResponse
deriving DecidableEq

/-- The `POST /jobs/image-to-splat` handler up to (and excluding) the
fire-and-forget `runImageGenerationJob` launch: cleanup, body validation,
source-artifact resolution and media check, then insertion of the `queued`
record. Returns the response, the job map, and the (possibly hydrated)
artifact store. -/
def startImageToSplatJob (jobs : JobMap) (store : StoreState) (body : StartRequestBody)
    (jobIdentifier : String) (now jobTtlMs : Nat) :
    StartJobResponse × JobMap × StoreState :=
  let jobs0 := cleanupExpiredImageGenerationJobs jobs now
  match body.imageArtifactId with
  | .nonString =>
    (.badRequest "imageArtifactId is required to start image-to-splat generation.",
      jobs0, store)
  | .str imageArtifactIdentifier =>
    if (jsTrim imageArtifactIdentifier).length = 0 then
      (.badRequest "imageArtifactId is required to start image-to-splat generation.",
        jobs0, store)
    else
      match getArtifactIfAvailable store imageArtifactIdentifier now with
      | (none, store1) =>
        (.notFound "Source image artifact was not found or has expired.", jobs0, store1)
      | (some sourceImageArtifact, store1) =>
        if !stringStartsWith (String.toLower sourceImageArtifact.mimeType) "image/" then
          (.badRequest ("Source artifact must be an image. Received mimeType=" ++
              sourceImageArtifact.mimeType ++ "."), jobs0, store1)
        else
          let imageGenerationJobRecord : ImageGenerationJobRecord :=
            { jobId := jobIdentifier
              status := .queued
              createdAtUnixMs := now
              updatedAtUnixMs := now
              expiresAtUnixMs := now + jobTtlMs
              imageArtifactId := imageArtifactIdentifier
              displayName := resolveDisplayName body.displayName
                sourceImageArtifact.displayName
              gpuTier := resolveGpuTier body.gpuTier
              errorMessage := none
              outputArtifactId := none
              outputArtifactUrl := none
              outputDisplayName := none
              outputFileSizeBytes := none }
          (.accepted imageGenerationJobRecord,
            setKey jobs0 jobIdentifier imageGenerationJobRecord, store1)

/-- Classification of a start response: 0 = 400, 1 = 404, 2 = 202. -/
def startRespKind : StartJobResponse → Nat
  | .badRequest _ => 0
  | .notFound _ => 1
  | .accepted _ => 2

/-- The response of `GET /jobs/image-to-splat/:jobId`. -/
inductive GetJobResponse where
  | badRequest : GetJobResponse
  | notFound : GetJobResponse
  | ok (job : ImageGenerationJobRecord) : GetJobResponse
deriving DecidableEq

/-- The `GET /jobs/image-to-splat/:jobId` handler: cleanup, then lookup. -/
def getImageGenerationJob (jobs : JobMap) (jobIdentifier : String) (now : Nat) :
    GetJobResponse × JobMap :=
  let jobs0 := cleanupExpiredImageGenerationJobs jobs now
  if jobIdentifier = "" then (.badRequest, jobs0)
  else
    match lookupKey jobs0 jobIdentifier with
    | none => (.notFound, jobs0)
    | some imageGenerationJobRecord => (.ok imageGenerationJobRecord, jobs0)

/-- The messages of the `Error`s thrown by `validateLikelyGaussianSplatPly`
(the missing-property list of the third message is carried by the error
constructor instead of being rendered into the string). -/
def plyValidationErrorMessage : PlyValidationError → String
  | .notPly => "Input file is not a valid PLY file."
  | .unsupportedFormat => "PLY format is not supported for splat rendering."
  | .missingProperties _ =>
    "PLY file is not a Gaussian splat format supported by this viewer."

/-- The `catch` path of `runImageGenerationJob`: mark the job failed with the
captured message. -/
def failJob (jobs : JobMap) (jobId : String) (normalizedErrorMessage : String)
    (now : Nat) : JobMap :=
  updateJobStatus jobs jobId
    { status := some .failed, errorMessage := some (some normalizedErrorMessage) } now

/-- `runImageGenerationJob`: transition to `running`, fetch and check the
source artifact, call the external backend (`backendResult` stands for the
Modal call: `.error` is any non-2xx/timeout/schema failure with its message),
validate the returned bytes, persist the output artifact, and finish in
`succeeded`; every failure lands in `failed` via the `catch`. All
`Date.now()` stamps of one run are modelled by the single `now`. -/
def runImageGenerationJob (jobs : JobMap) (store : StoreState) (jobId : String)
    (backendResult : Except String (List Nat)) (newArtifactId : String)
    (now artifactTtlMs : Nat) : JobMap × StoreState :=
  match lookupKey jobs jobId with
  | none => (jobs, store)
  | some existingJobRecord =>
    let jobs1 := updateJobStatus jobs jobId
      { status := some .running, errorMessage := some Option.none } now
    match getArtifactIfAvailable store existingJobRecord.imageArtifactId now with
    | (none, store1) =>
      (failJob jobs1 jobId "Source image artifact was not found or has expired." now,
        store1)
    | (some sourceImageArtifact, store1) =>
      if !stringStartsWith (String.toLower sourceImageArtifact.mimeType) "image/" then
        (failJob jobs1 jobId ("Source artifact is not an image (mimeType=" ++
            sourceImageArtifact.mimeType ++ ").") now, store1)
      else
        match readArtifactBytes store1 existingJobRecord.imageArtifactId now with
        | (none, store2) =>
          (failJob jobs1 jobId "Source image bytes were not available for generation." now,
            store2)
        | (some _, store2) =>
          match backendResult with
          | .error backendErrorMessage => (failJob jobs1 jobId backendErrorMessage now, store2)
          | .ok plyBytes =>
            match validateLikelyGaussianSplatPly plyBytes with
            | .error validationError =>
              (failJob jobs1 jobId (plyValidationErrorMessage validationError) now, store2)
            | .ok _ =>
              let generatedDisplayName :=
                if stringEndsWith (String.toLower existingJobRecord.displayName) ".ply" then
                  existingJobRecord.displayName
                else existingJobRecord.displayName ++ ".ply"
              match createArtifactFromBytes store2 newArtifactId plyBytes ".ply"
                  "application/octet-stream" generatedDisplayName now artifactTtlMs
                  .none with
              | (.ok generatedArtifact, store3) =>
                (updateJobStatus jobs1 jobId
                  { status := some .succeeded
                    errorMessage := some Option.none
                    outputArtifactId := some (some generatedArtifact.artifactId)
                    outputArtifactUrl :=
                      some (some (buildPublicArtifactUrl generatedArtifact.artifactId))
                    outputDisplayName := some (some generatedArtifact.displayName)
                    outputFileSizeBytes := some (some generatedArtifact.fileSizeBytes) }
                  now, store3)
              | (.error _, store3) =>
                -- unreachable with `CreateFault.none`; kept for exhaustiveness
                (failJob jobs1 jobId "Unknown image-to-splat generation failure." now,
                  store3)

/-- Invariant carried through hydration for the restart-durability argument:
artifact A's backing file and sidecar are intact, and no other sidecar record
or registry entry claims A's paths (so processing other entries cannot delete
A's files). -/
def restartInv (A : StoredArtifact) (artifactBytes : List Nat) (st : StoreState) : Prop :=
  lookupKey st.disk A.absoluteFilePath = some (.bytes artifactBytes) ∧
  lookupKey st.disk (metadataFileName A.artifactId) = some (.meta A) ∧
  (∀ e ∈ st.disk, e.1 ≠ metadataFileName A.artifactId →
    ∀ rec, e.2 = FileContent.meta rec →
      rec.absoluteFilePath ≠ A.absoluteFilePath ∧
      rec.absoluteFilePath ≠ metadataFileName A.artifactId) ∧
  (∀ e ∈ st.registry,
    e.2.absoluteFilePath ≠ A.absoluteFilePath ∧
    e.2.absoluteFilePath ≠ metadataFileName A.artifactId)

/-! ## Concrete sample data for witnesses and counterexamples -/

/-- A complete Gaussian-splat PLY header (ASCII, so `strBytes` is its exact
UTF-8 encoding). -/
def samplePlyGood : List Nat :=
  strBytes ("ply\nformat binary_little_endian 1.0\nelement vertex 2\n" ++
    "property float x\nproperty float y\nproperty float z\nproperty float opacity\n" ++
    "property float scale_0\nproperty float scale_1\nproperty float scale_2\n" ++
    "property float rot_0\nproperty float rot_1\nproperty float rot_2\n" ++
    "property float rot_3\nend_header\n")

/-- The same header with `opacity` and `rot_3` removed. -/
def samplePlyMissing : List Nat :=
  strBytes ("ply\nformat binary_little_endian 1.0\nelement vertex 2\n" ++
    "property float x\nproperty float y\nproperty float z\n" ++
    "property float scale_0\nproperty float scale_1\nproperty float scale_2\n" ++
    "property float rot_0\nproperty float rot_1\nproperty float rot_2\n" ++
    "end_header\n")

/-- An unexpired stored artifact whose backing file is `a.ply`. -/
def sampleArtifactA : StoredArtifact :=
  { artifactId := "a"
    absoluteFilePath := "a.ply"
    expiresAtUnixMs := 1000
    mimeType := "image/png"
    fileSizeBytes := 3
    displayName := "a.png" }

/-- A store holding only the sidecar of `sampleArtifactA` — its backing file
`a.ply` was deleted out-of-band, and the in-memory index is empty. -/
def sampleStoreSidecarOnly : StoreState :=
  { registry := []
    disk := [(metadataFileName "a", .meta sampleArtifactA)] }

/-- A consistent store (record, backing file and sidecar all present) for an
artifact that is already expired at `now = 2000`. -/
def sampleStoreExpired : StoreState :=
  { registry := [("a", sampleArtifactA)]
    disk := [("a.ply", .bytes [1, 2, 3]), (metadataFileName "a", .meta sampleArtifactA)] }

/-- The empty store. -/
def sampleStoreEmpty : StoreState := { registry := [], disk := [] }

/-- A terminal (succeeded) job record. -/
def sampleSucceededJob : ImageGenerationJobRecord :=
  { jobId := "job1"
    status := .succeeded
    createdAtUnixMs := 10
    updatedAtUnixMs := 20
    expiresAtUnixMs := 1000
    imageArtifactId := "a"
    displayName := "a.png"
    gpuTier := "l4"
    errorMessage := none
    outputArtifactId := some "b"
    outputArtifactUrl := some "/artifacts/b"
    outputDisplayName := some "a.png.ply"
    outputFileSizeBytes := some 3 }

/-- A job map holding only the terminal `sampleSucceededJob`. -/
def sampleTerminalJobs : JobMap := [("job1", sampleSucceededJob)]

/-- An already-expired queued job record (expiry 100). -/
def sampleExpiredJob : ImageGenerationJobRecord :=
  { jobId := "old"
    status := .queued
    createdAtUnixMs := 10
    updatedAtUnixMs := 10
    expiresAtUnixMs := 100
    imageArtifactId := "x"
    displayName := "x.png"
    gpuTier := "l4"
    errorMessage := none
    outputArtifactId := none
    outputArtifactUrl := none
    outputDisplayName := none
    outputFileSizeBytes := none }

/-- A job map holding only the expired `sampleExpiredJob`. -/
def sampleExpiredJobs : JobMap := [("old", sampleExpiredJob)]

/-- A start-request body referencing a nonexistent artifact. -/
def sampleStartBodyMissing : StartRequestBody :=
  { imageArtifactId := .str "missing"
    displayName := .nonString
    gpuTier := .nonString }

/-! ## Association-list lemmas -/

theorem lookupKey_nil {α : Type} (k : String) : lookupKey ([] : List (String × α)) k = none :=
  rfl

theorem lookupKey_cons {α : Type} (e : String × α) (rest : List (String × α)) (k : String) :
    lookupKey (e :: rest) k = if e.1 = k then some e.2 else lookupKey rest k := by
  by_cases h : e.1 = k <;> simp [lookupKey, List.find?, h]

theorem eraseKey_cons {α : Type} (e : String × α) (rest : List (String × α)) (k : String) :
    eraseKey (e :: rest) k = if e.1 = k then eraseKey rest k else e :: eraseKey rest k := by
  by_cases h : e.1 = k <;> simp [eraseKey, List.filter_cons, h]

theorem setKey_cons {α : Type} (e : String × α) (rest : List (String × α)) (k : String)
    (v : α) :
    setKey (e :: rest) k v = if e.1 = k then (k, v) :: rest else e :: setKey rest k v :=
  rfl

theorem lookupKey_setKey_self {α : Type} (l : List (String × α)) (k : String) (v : α) :
    lookupKey (setKey l k v) k = some v := by
  induction l with
  | nil => simp [setKey, lookupKey_cons, lookupKey_nil]
  | cons e rest ih =>
    rw [setKey_cons]
    by_cases h : e.1 = k
    · simp [h, lookupKey_cons]
    · simp [h, lookupKey_cons, ih]

theorem lookupKey_setKey_ne {α : Type} (l : List (String × α)) (k k' : String) (v : α)
    (h : k' ≠ k) : lookupKey (setKey l k v) k' = lookupKey l k' := by
  induction l with
  | nil => simp [setKey, lookupKey_cons, lookupKey_nil, Ne.symm h]
  | cons e rest ih =>
    rw [setKey_cons]
    by_cases he : e.1 = k
    · rw [if_pos he, lookupKey_cons, lookupKey_cons, he]
      simp [Ne.symm h]
    · rw [if_neg he, lookupKey_cons, lookupKey_cons, ih]

theorem lookupKey_eraseKey_self {α : Type} (l : List (String × α)) (k : String) :
    lookupKey (eraseKey l k) k = none := by
  induction l with
  | nil => simp [eraseKey, lookupKey_nil]
  | cons e rest ih =>
    rw [eraseKey_cons]
    by_cases h : e.1 = k
    · simpa [h] using ih
    · simpa [lookupKey_cons, h] using ih

theorem lookupKey_eraseKey_ne {α : Type} (l : List (String × α)) (k k' : String)
    (h : k' ≠ k) : lookupKey (eraseKey l k) k' = lookupKey l k' := by
  induction l with
  | nil => simp [eraseKey, lookupKey_nil]
  | cons e rest ih =>
    rw [eraseKey_cons]
    by_cases he : e.1 = k
    · have he' : e.1 ≠ k' := by rw [he]; exact Ne.symm h
      rw [if_pos he, lookupKey_cons, if_neg he', ih]
    · rw [if_neg he, lookupKey_cons, lookupKey_cons, ih]

theorem lookupKey_eq_none_iff {α : Type} (l : List (String × α)) (k : String) :
    lookupKey l k = none ↔ ∀ e ∈ l, e.1 ≠ k := by
  induction l with
  | nil => simp [lookupKey_nil]
  | cons e rest ih =>
    rw [lookupKey_cons]
    by_cases h : e.1 = k
    · simp [h]
    · simp [h, ih]

theorem eraseKey_of_lookup_none {α : Type} (l : List (String × α)) (k : String)
    (h : lookupKey l k = none) : eraseKey l k = l := by
  rw [lookupKey_eq_none_iff] at h
  apply List.filter_eq_self.mpr
  intro e he
  simpa using h e he

theorem lookupKey_eraseKey_of_none {α : Type} (l : List (String × α)) (k k' : String)
    (h : lookupKey l k = none) : lookupKey (eraseKey l k') k = none := by
  by_cases hk : k = k'
  · subst hk; exact lookupKey_eraseKey_self l k
  · rw [lookupKey_eraseKey_ne l k' k hk]; exact h

theorem mem_of_lookupKey_some {α : Type} {l : List (String × α)} {k : String} {v : α}
    (h : lookupKey l k = some v) : (k, v) ∈ l := by
  induction l with
  | nil => simp [lookupKey_nil] at h
  | cons e rest ih =>
    rw [lookupKey_cons] at h
    by_cases he : e.1 = k
    · rw [if_pos he] at h
      have : e = (k, v) := by
        obtain ⟨e1, e2⟩ := e
        simp only at he
        simp only [Option.some.injEq] at h
        simp [he, h]
      rw [← this]
      exact List.mem_cons_self e rest
    · rw [if_neg he] at h
      exact List.mem_cons_of_mem e (ih h)

theorem setKey_of_lookup_none {α : Type} (l : List (String × α)) (k : String) (v : α)
    (h : lookupKey l k = none) : setKey l k v = l ++ [(k, v)] := by
  induction l with
  | nil => simp [setKey]
  | cons e rest ih =>
    rw [lookupKey_eq_none_iff] at h
    have he : e.1 ≠ k := h e (List.mem_cons_self e rest)
    rw [setKey_cons, if_neg he, List.cons_append]
    congr 1
    apply ih
    rw [lookupKey_eq_none_iff]
    intro e' he'
    exact h e' (List.mem_cons_of_mem e he')

theorem mem_of_mem_eraseKey {α : Type} {l : List (String × α)} {k : String} {e : String × α}
    (h : e ∈ eraseKey l k) : e ∈ l := List.mem_of_mem_filter h

theorem mem_of_mem_setKey {α : Type} {l : List (String × α)} {k : String} {v : α}
    {e : String × α} (h : e ∈ setKey l k v) : e ∈ l ∨ e = (k, v) := by
  induction l with
  | nil => simpa [setKey] using h
  | cons e' rest ih =>
    rw [setKey_cons] at h
    by_cases he : e'.1 = k
    · rw [if_pos he] at h
      rcases List.mem_cons.mp h with h1 | h1
      · right; exact h1
      · left; exact List.mem_cons_of_mem e' h1
    · rw [if_neg he] at h
      rcases List.mem_cons.mp h with h1 | h1
      · left; exact h1 ▸ List.mem_cons_self e' rest
      · rcases ih h1 with h2 | h2
        · left; exact List.mem_cons_of_mem e' h2
        · right; exact h2

theorem lookupKey_append {α : Type} (l1 l2 : List (String × α)) (k : String) :
    lookupKey (l1 ++ l2) k =
      match lookupKey l1 k with
      | some v => some v
      | none => lookupKey l2 k := by
  induction l1 with
  | nil => simp [lookupKey_nil]
  | cons e rest ih =>
    rw [List.cons_append, lookupKey_cons, lookupKey_cons]
    by_cases h : e.1 = k
    · simp [h]
    · simp [h, ih]

theorem mem_addToSet_self {α : Type} [DecidableEq α] (l : List α) (x : α) :
    x ∈ addToSet l x := by
  by_cases h : x ∈ l <;> simp [addToSet, h]

theorem mem_addToSet_of_mem {α : Type} [DecidableEq α] {l : List α} {x : α} (y : α)
    (h : x ∈ l) : x ∈ addToSet l y := by
  by_cases hy : y ∈ l <;> simp [addToSet, hy, h]

/-! ## File-name lemmas -/

theorem stringEndsWith_append (s suffix : String) :
    stringEndsWith (s ++ suffix) suffix = true := by
  simp only [stringEndsWith, String.data_append, List.reverse_append]
  exact List.isPrefixOf_iff_prefix.mpr (List.prefix_append _ _)

theorem stringEndsWith_metadataFileName (id : String) :
    stringEndsWith (metadataFileName id) metaSuffix = true :=
  stringEndsWith_append id metaSuffix

theorem stringDropRight_append (s suffix : String) :
    stringDropRight (s ++ suffix) suffix.data.length = s := by
  apply String.ext
  simp only [stringDropRight, String.data_append, List.length_append]
  have : s.data.length + suffix.data.length - suffix.data.length = s.data.length := by omega
  rw [this, List.take_left]

theorem stringDropRight_metadataFileName (id : String) :
    stringDropRight (metadataFileName id) metaSuffix.length = id := by
  have h : metaSuffix.length = metaSuffix.data.length := rfl
  rw [metadataFileName, h]
  exact stringDropRight_append id metaSuffix

theorem exists_of_stringEndsWith {s suffix : String}
    (h : stringEndsWith s suffix = true) : ∃ t : String, s = t ++ suffix := by
  simp only [stringEndsWith] at h
  obtain ⟨t, ht⟩ := List.isPrefixOf_iff_prefix.mp h
  refine ⟨String.mk (t.reverse), ?_⟩
  apply String.ext
  have : s.data.reverse = suffix.data.reverse ++ t := ht.symm
  have h2 : s.data = (suffix.data.reverse ++ t).reverse := by
    rw [← this, List.reverse_reverse]
  rw [h2]
  simp [String.data_append]

theorem eq_metadataFileName_of_endsWith {fileName : String}
    (h : stringEndsWith fileName metaSuffix = true) :
    fileName = metadataFileName (stringDropRight fileName metaSuffix.length) := by
  obtain ⟨t, ht⟩ := exists_of_stringEndsWith h
  subst ht
  rw [show t ++ metaSuffix = metadataFileName t from rfl, stringDropRight_metadataFileName]

theorem metadataFileName_injective {a b : String}
    (h : metadataFileName a = metadataFileName b) : a = b := by
  have : a.data ++ metaSuffix.data = b.data ++ metaSuffix.data := by
    have := congrArg String.data h
    simpa [metadataFileName, String.data_append] using this
  exact String.ext (List.append_cancel_right this)

/-! ## deleteArtifact frame lemmas -/

theorem deleteArtifact_registry (s : StoreState) (id : String) :
    (deleteArtifact s id).registry = eraseKey s.registry id := by
  simp only [deleteArtifact]
  cases resolveStoredArtifact s id <;> rfl

theorem deleteArtifact_disk_of_resolve_some {s : StoreState} {id : String}
    {a : StoredArtifact} (h : resolveStoredArtifact s id = some a) :
    (deleteArtifact s id).disk =
      eraseKey (eraseKey s.disk a.absoluteFilePath) (metadataFileName id) := by
  simp only [deleteArtifact, h]

theorem deleteArtifact_disk_of_resolve_none {s : StoreState} {id : String}
    (h : resolveStoredArtifact s id = none) :
    (deleteArtifact s id).disk = eraseKey s.disk (metadataFileName id) := by
  simp only [deleteArtifact, h]

theorem deleteArtifact_meta_lookup_none (s : StoreState) (id : String) :
    lookupKey (deleteArtifact s id).disk (metadataFileName id) = none := by
  cases h : resolveStoredArtifact s id with
  | none => rw [deleteArtifact_disk_of_resolve_none h]; exact lookupKey_eraseKey_self _ _
  | some a => rw [deleteArtifact_disk_of_resolve_some h]; exact lookupKey_eraseKey_self _ _

theorem deleteArtifact_disk_none_mono (s : StoreState) (id k : String)
    (h : lookupKey s.disk k = none) : lookupKey (deleteArtifact s id).disk k = none := by
  cases hr : resolveStoredArtifact s id with
  | none =>
    rw [deleteArtifact_disk_of_resolve_none hr]
    exact lookupKey_eraseKey_of_none _ _ _ h
  | some a =>
    rw [deleteArtifact_disk_of_resolve_some hr]
    exact lookupKey_eraseKey_of_none _ _ _ (lookupKey_eraseKey_of_none _ _ _ h)

theorem deleteArtifact_registry_lookup_self (s : StoreState) (id : String) :
    lookupKey (deleteArtifact s id).registry id = none := by
  rw [deleteArtifact_registry]; exact lookupKey_eraseKey_self _ _

theorem deleteArtifact_registry_lookup_ne (s : StoreState) (id id' : String)
    (h : id' ≠ id) :
    lookupKey (deleteArtifact s id).registry id' = lookupKey s.registry id' := by
  rw [deleteArtifact_registry]; exact lookupKey_eraseKey_ne _ _ _ h

theorem deleteArtifact_disk_preserved (s : StoreState) (id k : String)
    (hk : k ≠ metadataFileName id)
    (hres : ∀ a, resolveStoredArtifact s id = some a → a.absoluteFilePath ≠ k) :
    lookupKey (deleteArtifact s id).disk k = lookupKey s.disk k := by
  cases hr : resolveStoredArtifact s id with
  | none =>
    rw [deleteArtifact_disk_of_resolve_none hr]
    exact lookupKey_eraseKey_ne _ _ _ hk
  | some a =>
    rw [deleteArtifact_disk_of_resolve_some hr]
    rw [lookupKey_eraseKey_ne _ _ _ hk]
    exact lookupKey_eraseKey_ne _ _ _ (fun he => hres a hr (he ▸ rfl))

/-! ## Sweep lemmas -/

theorem foldl_deleteArtifact_disk_none :
    ∀ (ids : List String) (s : StoreState) (k : String),
      lookupKey s.disk k = none →
      lookupKey (ids.foldl (fun st artifactIdentifier =>
        deleteArtifact st artifactIdentifier) s).disk k = none := by
  intro ids
  induction ids with
  | nil => intro s k h; simpa using h
  | cons i t ih =>
    intro s k h
    exact ih (deleteArtifact s i) k (deleteArtifact_disk_none_mono s i k h)

theorem foldl_deleteArtifact_meta_none :
    ∀ (ids : List String) (s : StoreState) (id : String), id ∈ ids →
      lookupKey (ids.foldl (fun st artifactIdentifier =>
        deleteArtifact st artifactIdentifier) s).disk (metadataFileName id) = none := by
  intro ids
  induction ids with
  | nil => intro s id h; simp at h
  | cons i t ih =>
    intro s id h
    rw [List.foldl_cons]
    by_cases hi : id = i
    · subst hi
      exact foldl_deleteArtifact_disk_none t (deleteArtifact s id) _
        (deleteArtifact_meta_lookup_none s id)
    · rcases List.mem_cons.mp h with h1 | h1
      · exact absurd h1 hi
      · exact ih (deleteArtifact s i) id h1

theorem foldl_deleteArtifact_file_none :
    ∀ (ids : List String) (s : StoreState) (id : String) (a : StoredArtifact),
      id ∈ ids → lookupKey s.registry id = some a →
      lookupKey (ids.foldl (fun st artifactIdentifier =>
        deleteArtifact st artifactIdentifier) s).disk a.absoluteFilePath = none := by
  intro ids
  induction ids with
  | nil => intro s id a h; simp at h
  | cons i t ih =>
    intro s id a h hreg
    rw [List.foldl_cons]
    by_cases hi : id = i
    · subst hi
      have hres : resolveStoredArtifact s id = some a := by
        simp [resolveStoredArtifact, hreg]
      apply foldl_deleteArtifact_disk_none
      rw [deleteArtifact_disk_of_resolve_some hres]
      exact lookupKey_eraseKey_of_none _ _ _ (lookupKey_eraseKey_self _ _)
    · rcases List.mem_cons.mp h with h1 | h1
      · exact absurd h1 hi
      · have : lookupKey (deleteArtifact s i).registry id = some a := by
          rw [deleteArtifact_registry_lookup_ne s i id hi]; exact hreg
        exact ih (deleteArtifact s i) id a h1 this

theorem mem_collectRegistryExpired_aux (id : String) (now : Nat) :
    ∀ (l : List (String × StoredArtifact)) (acc : List String),
      (id ∈ acc ∨ ∃ a, (id, a) ∈ l ∧ a.expiresAtUnixMs ≤ now) →
      id ∈ l.foldl
        (fun acc e => if e.2.expiresAtUnixMs ≤ now then addToSet acc e.1 else acc) acc := by
  intro l
  induction l with
  | nil =>
    intro acc h
    rcases h with h | ⟨a, ha, _⟩
    · simpa using h
    · simp at ha
  | cons e t ih =>
    intro acc h
    rw [List.foldl_cons]
    apply ih
    rcases h with h | ⟨a, ha, hexp⟩
    · left
      by_cases he : e.2.expiresAtUnixMs ≤ now
      · rw [if_pos he]; exact mem_addToSet_of_mem e.1 h
      · rwa [if_neg he]
    · rcases List.mem_cons.mp ha with h1 | h1
      · left
        subst h1
        rw [if_pos hexp]
        exact mem_addToSet_self acc id
      · right; exact ⟨a, h1, hexp⟩

theorem mem_collectRegistryExpired {s : StoreState} {id : String} {a : StoredArtifact}
    {now : Nat} (h : (id, a) ∈ s.registry) (hexp : a.expiresAtUnixMs ≤ now) :
    id ∈ collectRegistryExpired s now :=
  mem_collectRegistryExpired_aux id now s.registry [] (Or.inr ⟨a, h, hexp⟩)

theorem mem_collectDiskExpired_of_mem_acc (s : StoreState) (now : Nat) (id : String) :
    ∀ (names : List String) (acc : List String), id ∈ acc →
      id ∈ collectDiskExpired names s now acc := by
  intro names
  induction names with
  | nil => intro acc h; simpa [collectDiskExpired] using h
  | cons n t ih =>
    intro acc h
    simp only [collectDiskExpired]
    repeat' split
    all_goals first
      | exact ih acc h
      | exact ih _ (mem_addToSet_of_mem _ h)

theorem mem_collectDiskExpired {s : StoreState} {id : String} {rec : StoredArtifact}
    {now : Nat}
    (hlook : lookupKey s.disk (metadataFileName id) = some (.meta rec))
    (hexp : rec.expiresAtUnixMs ≤ now) :
    ∀ (names : List String) (acc : List String), metadataFileName id ∈ names →
      id ∈ collectDiskExpired names s now acc := by
  intro names
  induction names with
  | nil => intro acc h; simp at h
  | cons n t ih =>
    intro acc h
    simp only [collectDiskExpired]
    by_cases hn : n = metadataFileName id
    · subst hn
      rw [if_pos (stringEndsWith_metadataFileName id), stringDropRight_metadataFileName]
      by_cases hc : acc.contains id
      · rw [if_pos hc]
        have : id ∈ acc := by simpa using hc
        exact mem_collectDiskExpired_of_mem_acc s now id t acc this
      · rw [if_neg hc]
        have hm : readArtifactMetadataFromDisk s id = some { rec with artifactId := id } := by
          simp [readArtifactMetadataFromDisk, hlook]
        simp only [hm]
        have he : ({ rec with artifactId := id } : StoredArtifact).expiresAtUnixMs ≤ now :=
          hexp
        rw [if_pos he]
        exact mem_collectDiskExpired_of_mem_acc s now id t _ (mem_addToSet_self acc id)
    · rcases List.mem_cons.mp h with h1 | h1
      · exact absurd h1.symm hn
      · repeat' split
        all_goals first
          | exact ih acc h1
          | exact ih _ h1

/-! ## UTF-8 decoder lemmas -/

theorem utf8Decode_nil : utf8Decode [] = [] := rfl

theorem utf8Decode_cons_ascii (b : Nat) (rest : List Nat) (h : b < 0x80) :
    utf8Decode (b :: rest) = b :: utf8Decode rest := by
  simp only [utf8Decode, List.length_cons, utf8DecodeAux, if_pos h]

theorem utf8DecodeAux_head_ge (fuel : Nat) (b : Nat) (rest : List Nat) (h : ¬ b < 0x80) :
    ∃ h0 t, utf8DecodeAux (fuel + 1) (b :: rest) = h0 :: t ∧ 0x80 ≤ h0 := by
  simp only [utf8DecodeAux, if_neg h]
  repeat' split
  all_goals refine ⟨_, _, rfl, ?_⟩
  all_goals
    simp_all only [isContinuationByte, Bool.and_eq_true, Bool.or_eq_true,
      decide_eq_true_eq, not_lt]
  all_goals omega

theorem utf8Decode_head_ge (b : Nat) (rest : List Nat) (h : ¬ b < 0x80) :
    ∃ h0 t, utf8Decode (b :: rest) = h0 :: t ∧ 0x80 ≤ h0 := by
  simp only [utf8Decode, List.length_cons]
  exact utf8DecodeAux_head_ge rest.length b rest h

/-- Decoding is transparent for an ASCII prefix pattern: an all-ASCII pattern
is a prefix of the decoded text exactly when its bytes are a prefix of the
input bytes. -/
theorem utf8Decode_isPrefixOf_ascii :
    ∀ (pat bytes : List Nat), (∀ v ∈ pat, v < 0x80) →
      (pat.isPrefixOf (utf8Decode bytes) = pat.isPrefixOf bytes) := by
  intro pat
  induction pat with
  | nil => intro bytes _; simp [List.isPrefixOf]
  | cons v pvs ih =>
    intro bytes hv
    have hv0 : v < 0x80 := hv v (List.mem_cons_self v pvs)
    have hvs : ∀ x ∈ pvs, x < 0x80 := fun x hx => hv x (List.mem_cons_of_mem v hx)
    cases bytes with
    | nil => simp [utf8Decode_nil]
    | cons b rest =>
      by_cases hb : b < 0x80
      · rw [utf8Decode_cons_ascii b rest hb]
        simp only [List.isPrefixOf]
        rw [ih rest hvs]
      · obtain ⟨h0, t, he, hge⟩ := utf8Decode_head_ge b rest hb
        rw [he]
        simp only [List.isPrefixOf]
        have h1 : (v == h0) = false := by
          simp only [beq_eq_false_iff_ne, ne_eq]
          omega
        have h2 : (v == b) = false := by
          simp only [beq_eq_false_iff_ne, ne_eq]
          omega
        rw [h1, h2, Bool.false_and, Bool.false_and]

/-- The magic check of `validateLikelyGaussianSplatPly`, characterized at the
byte level: the decoded 16-byte preview starts with "ply" exactly when the
input starts with the three bytes 0x70 0x6C 0x79. -/
theorem magic_check_iff (plyBytes : List Nat) :
    (strScalars "ply").isPrefixOf (utf8Decode (plyBytes.take 16)) = true ↔
      plyBytes.take 3 = [112, 108, 121] := by
  have hpat : strScalars "ply" = [112, 108, 121] := by decide
  rw [hpat]
  rw [utf8Decode_isPrefixOf_ascii [112, 108, 121] (plyBytes.take 16) (by decide)]
  rw [List.isPrefixOf_iff_prefix, List.prefix_take_iff]
  constructor
  · rintro ⟨hp, _⟩
    have := List.prefix_iff_eq_take.mp hp
    simpa using this.symm
  · intro h
    refine ⟨?_, by simp⟩
    rw [List.prefix_iff_eq_take]
    simpa using h.symm

/-! ## Validator characterization -/

theorem validate_ok_iff (plyBytes : List Nat) :
    validateLikelyGaussianSplatPly plyBytes = .ok () ↔
      ((strScalars "ply").isPrefixOf (utf8Decode (plyBytes.take 16)) = true ∧
        (parsePlyHeader plyBytes).format = strScalars "binary_little_endian" ∧
        buildMissingPropertyList (parsePlyHeader plyBytes).vertexPropertyNames
          requiredSplatPropertyNames = []) := by
  simp only [validateLikelyGaussianSplatPly]
  split_ifs with h1 h2 h3
  · simp only [Bool.not_eq_true'] at h1
    simp [h1]
  · simp only [Bool.not_eq_true', Bool.not_eq_false] at h1
    simp [h1, h2]
  · simp only [Bool.not_eq_true', Bool.not_eq_false] at h1
    simp only [ne_eq, not_not] at h2
    constructor
    · intro h; exact absurd h (by simp)
    · rintro ⟨_, _, hmiss⟩
      rw [hmiss] at h3
      simp at h3
  · simp only [Bool.not_eq_true', Bool.not_eq_false] at h1
    simp only [ne_eq, not_not] at h2
    simp only [gt_iff_lt, not_lt, Nat.le_zero, List.length_eq_zero] at h3
    simp [h1, h2, h3]

theorem validate_missing_of (plyBytes : List Nat)
    (h1 : (strScalars "ply").isPrefixOf (utf8Decode (plyBytes.take 16)) = true)
    (h2 : (parsePlyHeader plyBytes).format = strScalars "binary_little_endian")
    (h3 : buildMissingPropertyList (parsePlyHeader plyBytes).vertexPropertyNames
      requiredSplatPropertyNames ≠ []) :
    validateLikelyGaussianSplatPly plyBytes =
      .error (.missingProperties (buildMissingPropertyList
        (parsePlyHeader plyBytes).vertexPropertyNames requiredSplatPropertyNames)) := by
  have h3' : 0 < (buildMissingPropertyList (parsePlyHeader plyBytes).vertexPropertyNames
      requiredSplatPropertyNames).length := List.length_pos.mpr h3
  simp [validateLikelyGaussianSplatPly, h1, h2, h3']

theorem buildMissingPropertyList_eq_nil_iff (props required : List (List Nat)) :
    buildMissingPropertyList props required = [] ↔ ∀ r ∈ required, r ∈ props := by
  simp [buildMissingPropertyList, List.filter_eq_nil_iff]

theorem mem_buildMissingPropertyList_iff (props required : List (List Nat))
    (f : List Nat) :
    f ∈ buildMissingPropertyList props required ↔ (f ∈ required ∧ f ∉ props) := by
  simp [buildMissingPropertyList, List.mem_filter]

/-- C4: `validateLikelyGaussianSplatPly(b)` succeeds iff `b` begins with the
three magic bytes of "ply", the header parsed from (at most) the first 64000
bytes declares format `binary_little_endian`, and every one of the eleven
required property names appears among the declared `vertex` properties;
moreover, under magic and format success, a failure names exactly the absent
required fields (in required-list order) as missing. -/
theorem claim_C4_validator (plyBytes : List Nat) :
    (validateLikelyGaussianSplatPly plyBytes = .ok () ↔
      (plyBytes.take 3 = [112, 108, 121] ∧
        (parsePlyHeader plyBytes).format = strScalars "binary_little_endian" ∧
        ∀ r ∈ requiredSplatPropertyNames,
          r ∈ (parsePlyHeader plyBytes).vertexPropertyNames)) ∧
    (plyBytes.take 3 = [112, 108, 121] →
      (parsePlyHeader plyBytes).format = strScalars "binary_little_endian" →
      buildMissingPropertyList (parsePlyHeader plyBytes).vertexPropertyNames
        requiredSplatPropertyNames ≠ [] →
      (validateLikelyGaussianSplatPly plyBytes =
          .error (.missingProperties (buildMissingPropertyList
            (parsePlyHeader plyBytes).vertexPropertyNames requiredSplatPropertyNames)) ∧
        ∀ f, f ∈ buildMissingPropertyList (parsePlyHeader plyBytes).vertexPropertyNames
            requiredSplatPropertyNames ↔
          (f ∈ requiredSplatPropertyNames ∧
            f ∉ (parsePlyHeader plyBytes).vertexPropertyNames))) := by
  constructor
  · rw [validate_ok_iff, magic_check_iff,
      buildMissingPropertyList_eq_nil_iff (parsePlyHeader plyBytes).vertexPropertyNames
        requiredSplatPropertyNames]
  · intro hmagic hfmt hmiss
    refine ⟨validate_missing_of plyBytes ((magic_check_iff plyBytes).mpr hmagic) hfmt
      hmiss, ?_⟩
    intro f
    exact mem_buildMissingPropertyList_iff _ _ f

set_option maxRecDepth 100000 in
/-- C4 witness: a concrete complete header validates, and a concrete header
missing `opacity` and `rot_3` fails naming exactly those two fields. -/
theorem claim_C4_validator_witness :
    validateLikelyGaussianSplatPly samplePlyGood = .ok () ∧
      validateLikelyGaussianSplatPly samplePlyMissing =
        .error (.missingProperties [strScalars "opacity", strScalars "rot_3"]) := by
  constructor
  · exact (claim_C4_validator samplePlyGood).1.mpr (by decide)
  · have h := ((claim_C4_validator samplePlyMissing).2 (by decide) (by decide)
      (by decide)).1
    rw [h]
    decide

/-- C7: the validator is a total pure function of the input bytes — on every
byte sequence (empty, truncated, non-UTF-8, arbitrary) it terminates with
either success or a validation-failure value; there is no third outcome in
the model, matching the source, whose decode/slice/split/trim operations
never throw. -/
theorem claim_C7_validator_total (plyBytes : List Nat) :
    validateLikelyGaussianSplatPly plyBytes = .ok () ∨
      ∃ e : PlyValidationError, validateLikelyGaussianSplatPly plyBytes = .error e := by
  cases h : validateLikelyGaussianSplatPly plyBytes with
  | ok u => left; cases u; rfl
  | error e => right; exact ⟨e, rfl⟩

/-! ## deleteArtifact idempotence (C9) -/

theorem deleteArtifact_eq_self_of_no_trace (s : StoreState) (id : String)
    (hr : lookupKey s.registry id = none)
    (hd : lookupKey s.disk (metadataFileName id) = none) :
    deleteArtifact s id = s := by
  have hres : resolveStoredArtifact s id = none := by
    simp [resolveStoredArtifact, hr, readArtifactMetadataFromDisk, hd]
  simp only [deleteArtifact, hres]
  rw [eraseKey_of_lookup_none _ _ hr, eraseKey_of_lookup_none _ _ hd]

/-- C9: `deleteArtifact` is idempotent — one call removes the in-memory
record, the backing file (when a record resolves) and the sidecar; a second
call, or a call on an id of which the store has no trace, leaves the state
unchanged. -/
theorem claim_C9_delete_idempotent (s : StoreState) (id : String) :
    lookupKey (deleteArtifact s id).registry id = none ∧
    lookupKey (deleteArtifact s id).disk (metadataFileName id) = none ∧
    (∀ a, lookupKey s.registry id = some a →
      lookupKey (deleteArtifact s id).disk a.absoluteFilePath = none) ∧
    deleteArtifact (deleteArtifact s id) id = deleteArtifact s id ∧
    (lookupKey s.registry id = none → lookupKey s.disk (metadataFileName id) = none →
      deleteArtifact s id = s) := by
  refine ⟨deleteArtifact_registry_lookup_self s id, deleteArtifact_meta_lookup_none s id,
    ?_, ?_, ?_⟩
  · intro a ha
    have hres : resolveStoredArtifact s id = some a := by
      simp [resolveStoredArtifact, ha]
    rw [deleteArtifact_disk_of_resolve_some hres]
    exact lookupKey_eraseKey_of_none _ _ _ (lookupKey_eraseKey_self _ _)
  · exact deleteArtifact_eq_self_of_no_trace _ _ (deleteArtifact_registry_lookup_self s id)
      (deleteArtifact_meta_lookup_none s id)
  · intro h1 h2
    exact deleteArtifact_eq_self_of_no_trace s id h1 h2

/-- C9 witness: deleting the untouched id "a" from the empty store is the
identity, twice over. -/
theorem claim_C9_delete_idempotent_witness :
    deleteArtifact sampleStoreEmpty "a" = sampleStoreEmpty ∧
      deleteArtifact (deleteArtifact sampleStoreEmpty "a") "a" =
        deleteArtifact sampleStoreEmpty "a" := by
  have h := claim_C9_delete_idempotent sampleStoreEmpty "a"
  exact ⟨h.2.2.2.2 (by decide) (by decide), h.2.2.2.1⟩

/-! ## Create atomicity (C1) -/

/-- C1 counterexample: when the sidecar `writeFile` fails, the call reports an
error, yet the backing file has been written and the in-memory record remains
registered — contradicting "if the call reports an error then neither the
backing file nor the sidecar persists (and no in-memory record remains)". -/
theorem claim_C1_counterexample :
    (createArtifactFromBytes sampleStoreEmpty "a" [1, 2, 3] ".png" "image/png" "pic"
      0 1000 .metaWrite).1 = .error () ∧
    lookupKey (createArtifactFromBytes sampleStoreEmpty "a" [1, 2, 3] ".png" "image/png"
      "pic" 0 1000 .metaWrite).2.disk (dataFileName "a" ".png") =
        some (.bytes [1, 2, 3]) ∧
    (lookupKey (createArtifactFromBytes sampleStoreEmpty "a" [1, 2, 3] ".png" "image/png"
      "pic" 0 1000 .metaWrite).2.registry "a").isSome = true := by
  decide

/-- C1 (amended): on a successful return both the backing file and the sidecar
record exist (and the record is registered in memory); a failure of the
backing-file write reports an error and persists nothing; but a failure of
the sidecar write reports an error while leaving the already-written backing
file and the already-inserted in-memory record behind — the source performs
no rollback. -/
theorem claim_C1_create_atomicity (s : StoreState) (id : String) (bytes : List Nat)
    (ext mime disp : String) (now ttl : Nat)
    (hne : dataFileName id ext ≠ metadataFileName id) :
    (∃ A : StoredArtifact,
      (createArtifactFromBytes s id bytes ext mime disp now ttl .none).1 = .ok A ∧
      A.artifactId = id ∧ A.absoluteFilePath = dataFileName id ext ∧
      A.expiresAtUnixMs = now + ttl ∧ A.mimeType = mime ∧
      A.fileSizeBytes = bytes.length ∧ A.displayName = disp ∧
      lookupKey (createArtifactFromBytes s id bytes ext mime disp now ttl .none).2.disk
        (dataFileName id ext) = some (.bytes bytes) ∧
      lookupKey (createArtifactFromBytes s id bytes ext mime disp now ttl .none).2.disk
        (metadataFileName id) = some (.meta A) ∧
      lookupKey (createArtifactFromBytes s id bytes ext mime disp now ttl .none).2.registry
        id = some A) ∧
    ((createArtifactFromBytes s id bytes ext mime disp now ttl .fileWrite).1 =
        .error () ∧
      (createArtifactFromBytes s id bytes ext mime disp now ttl .fileWrite).2 = s) ∧
    (∃ A : StoredArtifact,
      (createArtifactFromBytes s id bytes ext mime disp now ttl .metaWrite).1 =
        .error () ∧
      lookupKey (createArtifactFromBytes s id bytes ext mime disp now ttl
        .metaWrite).2.disk (dataFileName id ext) = some (.bytes bytes) ∧
      lookupKey (createArtifactFromBytes s id bytes ext mime disp now ttl
        .metaWrite).2.registry id = some A ∧
      (lookupKey s.disk (metadataFileName id) = none →
        lookupKey (createArtifactFromBytes s id bytes ext mime disp now ttl
          .metaWrite).2.disk (metadataFileName id) = none)) := by
  refine ⟨⟨_, rfl, rfl, rfl, rfl, rfl, rfl, rfl, ?_, ?_, ?_⟩, ⟨rfl, rfl⟩,
    ⟨{ artifactId := id, absoluteFilePath := dataFileName id ext,
       expiresAtUnixMs := now + ttl, mimeType := mime,
       fileSizeBytes := bytes.length, displayName := disp }, rfl, ?_, ?_, ?_⟩⟩
  · show lookupKey (setKey (setKey s.disk (dataFileName id ext) (.bytes bytes))
      (metadataFileName id) _) (dataFileName id ext) = some (.bytes bytes)
    rw [lookupKey_setKey_ne _ _ _ _ hne]
    exact lookupKey_setKey_self _ _ _
  · exact lookupKey_setKey_self _ _ _
  · exact lookupKey_setKey_self _ _ _
  · exact lookupKey_setKey_self _ _ _
  · exact lookupKey_setKey_self _ _ _
  · intro hnone
    show lookupKey (setKey s.disk (dataFileName id ext) (.bytes bytes))
      (metadataFileName id) = none
    rw [lookupKey_setKey_ne _ _ _ _ (Ne.symm hne)]
    exact hnone

/-- C1 witness: the amended statement at a concrete creation. -/
theorem claim_C1_create_atomicity_witness :
    (createArtifactFromBytes sampleStoreEmpty "a" [1, 2, 3] ".png" "image/png" "pic"
      0 1000 .fileWrite).2 = sampleStoreEmpty := by
  exact (claim_C1_create_atomicity sampleStoreEmpty "a" [1, 2, 3] ".png" "image/png"
    "pic" 0 1000 (by decide)).2.1.2

/-! ## Self-healing read (C2) -/

/-- C2 counterexample: a sidecar record exists for id "a" but its backing file
`a.ply` is missing; `getArtifactIfAvailable` reports not-found (discovering
the inconsistency), yet the sidecar metadata file is still on disk afterwards
— contradicting "deletes the other two pieces; in particular ... the sidecar
metadata file is deleted". -/
theorem claim_C2_counterexample :
    (getArtifactIfAvailable sampleStoreSidecarOnly "a" 0).1 = none ∧
      lookupKey (getArtifactIfAvailable sampleStoreSidecarOnly "a" 0).2.disk
        (metadataFileName "a") = some (.meta sampleArtifactA) := by
  decide

/-- C2 (amended): when the sidecar record exists but the backing file is
missing, a read reports not-found and evicts the in-memory record, but
deletes nothing from disk — the sidecar file stays (it is only removed later
by `initialize()` or by the expiry sweep); the not-found answer is
nevertheless sticky: an immediately repeated `get` also reports not-found. -/
theorem claim_C2_self_healing_read (s : StoreState) (id : String) (rec : StoredArtifact)
    (now : Nat)
    (hreg : lookupKey s.registry id = none)
    (hmeta : lookupKey s.disk (metadataFileName id) = some (.meta rec))
    (hexp : now < rec.expiresAtUnixMs)
    (hfile : lookupKey s.disk rec.absoluteFilePath = none) :
    (getArtifactIfAvailable s id now).1 = none ∧
    lookupKey (getArtifactIfAvailable s id now).2.registry id = none ∧
    (getArtifactIfAvailable s id now).2.disk = s.disk ∧
    (getArtifactIfAvailable (getArtifactIfAvailable s id now).2 id now).1 = none := by
  have ha : resolveStoredArtifact s id = some { rec with artifactId := id } := by
    simp [resolveStoredArtifact, hreg, readArtifactMetadataFromDisk, hmeta]
  have hnotexp : ¬ ({ rec with artifactId := id } : StoredArtifact).expiresAtUnixMs ≤
      now := by
    simpa using Nat.not_le.mpr hexp
  have hget : getArtifactIfAvailable s id now =
      (none, { s with
        registry := eraseKey (setKey s.registry id { rec with artifactId := id }) id }) := by
    simp only [getArtifactIfAvailable, ha, if_neg hnotexp]
    simp only [hfile]
  rw [hget]
  refine ⟨rfl, lookupKey_eraseKey_self _ _, rfl, ?_⟩
  have hreg2 : lookupKey
      (eraseKey (setKey s.registry id { rec with artifactId := id }) id) id = none :=
    lookupKey_eraseKey_self _ _
  have ha2 : resolveStoredArtifact
      { s with registry :=
          eraseKey (setKey s.registry id { rec with artifactId := id }) id } id =
      some { rec with artifactId := id } := by
    simp [resolveStoredArtifact, hreg2, readArtifactMetadataFromDisk, hmeta]
  simp only [getArtifactIfAvailable, ha2, if_neg hnotexp]
  simp only [hfile]

/-- C2 witness: the amended statement at the concrete sidecar-only store. -/
theorem claim_C2_self_healing_read_witness :
    (getArtifactIfAvailable sampleStoreSidecarOnly "a" 0).1 = none ∧
      (getArtifactIfAvailable sampleStoreSidecarOnly "a" 0).2.disk =
        sampleStoreSidecarOnly.disk := by
  have h := claim_C2_self_healing_read sampleStoreSidecarOnly "a" sampleArtifactA 0
    (by decide) (by decide) (by decide) (by decide)
  exact ⟨h.1, h.2.2.1⟩

/-! ## TTL invariant and dual-source sweep (C3) -/

/-- C3: for an artifact A past its expiry, `getArtifactIfAvailable` reports
not-found (and deletes it), and `deleteExpiredArtifacts` removes both A's
backing file and A's sidecar; the sweep also removes the sidecar of every
expired record discovered only by scanning the directory (the in-memory
index need not know it). -/
theorem claim_C3_ttl_expiry_sweep (s : StoreState) (A : StoredArtifact) (now : Nat)
    (hreg : lookupKey s.registry A.artifactId = some A)
    (hexp : A.expiresAtUnixMs < now) :
    (getArtifactIfAvailable s A.artifactId now).1 = none ∧
    lookupKey (deleteExpiredArtifacts s now).disk A.absoluteFilePath = none ∧
    lookupKey (deleteExpiredArtifacts s now).disk (metadataFileName A.artifactId) =
      none ∧
    (∀ id rec, lookupKey s.disk (metadataFileName id) = some (.meta rec) →
      rec.expiresAtUnixMs < now →
      lookupKey (deleteExpiredArtifacts s now).disk (metadataFileName id) = none) := by
  have hres : resolveStoredArtifact s A.artifactId = some A := by
    simp [resolveStoredArtifact, hreg]
  have hmem : A.artifactId ∈ collectDiskExpired (s.disk.map (fun e => e.1)) s now
      (collectRegistryExpired s now) :=
    mem_collectDiskExpired_of_mem_acc s now A.artifactId _ _
      (mem_collectRegistryExpired (mem_of_lookupKey_some hreg) (Nat.le_of_lt hexp))
  refine ⟨?_, ?_, ?_, ?_⟩
  · simp only [getArtifactIfAvailable, hres, if_pos (Nat.le_of_lt hexp)]
  · simp only [deleteExpiredArtifacts]
    exact foldl_deleteArtifact_file_none _ s A.artifactId A hmem hreg
  · simp only [deleteExpiredArtifacts]
    exact foldl_deleteArtifact_meta_none _ s A.artifactId hmem
  · intro id rec hlook hrecexp
    have hnames : metadataFileName id ∈ s.disk.map (fun e => e.1) :=
      List.mem_map_of_mem (fun e => e.1) (mem_of_lookupKey_some hlook)
    have hmem2 : id ∈ collectDiskExpired (s.disk.map (fun e => e.1)) s now
        (collectRegistryExpired s now) :=
      mem_collectDiskExpired hlook (Nat.le_of_lt hrecexp) _ _ hnames
    simp only [deleteExpiredArtifacts]
    exact foldl_deleteArtifact_meta_none _ s id hmem2

/-- C3 witness: the expired artifact "a" of `sampleStoreExpired` at time 2000:
get reports not-found and the sweep leaves neither its file nor its sidecar. -/
theorem claim_C3_ttl_expiry_sweep_witness :
    (getArtifactIfAvailable sampleStoreExpired "a" 2000).1 = none ∧
      lookupKey (deleteExpiredArtifacts sampleStoreExpired 2000).disk "a.ply" = none ∧
      lookupKey (deleteExpiredArtifacts sampleStoreExpired 2000).disk
        (metadataFileName "a") = none := by
  have h := claim_C3_ttl_expiry_sweep sampleStoreExpired sampleArtifactA 2000
    (by decide) (by decide)
  exact ⟨h.1, h.2.1, h.2.2.1⟩

/-! ## Job-map lemmas -/

theorem lookupKey_filter_of_some {α : Type} {l : List (String × α)} {k : String} {v : α}
    {p : String × α → Bool} (h : lookupKey l k = some v) (hp : p (k, v) = true) :
    lookupKey (l.filter p) k = some v := by
  induction l with
  | nil => simp [lookupKey_nil] at h
  | cons e rest ih =>
    rw [lookupKey_cons] at h
    by_cases he : e.1 = k
    · rw [if_pos he] at h
      have hev : e = (k, v) := by
        obtain ⟨e1, e2⟩ := e
        simp only at he
        simp only [Option.some.injEq] at h
        simp [he, h]
      subst hev
      rw [List.filter_cons, if_pos hp, lookupKey_cons]
      simp
    · rw [if_neg he] at h
      rw [List.filter_cons]
      by_cases hpe : p e = true
      · rw [if_pos hpe, lookupKey_cons, if_neg he]
        exact ih h
      · rw [if_neg hpe]
        exact ih h

theorem lookupKey_cleanup_of_live {jobs : JobMap} {jobId : String}
    {J : ImageGenerationJobRecord} {now : Nat}
    (h : lookupKey jobs jobId = some J) (hexp : now < J.expiresAtUnixMs) :
    lookupKey (cleanupExpiredImageGenerationJobs jobs now) jobId = some J := by
  apply lookupKey_filter_of_some h
  simp only [Bool.not_eq_true', decide_eq_false_iff_not]
  omega

theorem updateJobStatus_lookup {jobs : JobMap} {jobId : String}
    {J : ImageGenerationJobRecord} (u : JobUpdate) (now : Nat)
    (h : lookupKey jobs jobId = some J) :
    lookupKey (updateJobStatus jobs jobId u now) jobId =
      some (applyJobUpdate J u now) := by
  simp only [updateJobStatus, h]
  exact lookupKey_setKey_self _ _ _

theorem failJob_lookup {jobs : JobMap} {jobId : String} {J : ImageGenerationJobRecord}
    (msg : String) (now : Nat) (h : lookupKey jobs jobId = some J) :
    lookupKey (failJob jobs jobId msg now) jobId =
      some (applyJobUpdate J
        { status := some .failed, errorMessage := some (some msg) } now) := by
  simp only [failJob]
  exact updateJobStatus_lookup _ now h

/-- Whatever happens during a run (missing source, wrong media type, backend
failure, validation failure, persistence failure, or success), the job ends in
a terminal status. -/
theorem runImageGenerationJob_terminal (jobs : JobMap) (store : StoreState)
    (jobId : String) (backendResult : Except String (List Nat))
    (newArtifactId : String) (now ttlMs : Nat) (J : ImageGenerationJobRecord)
    (hlook : lookupKey jobs jobId = some J) :
    ∃ r, lookupKey (runImageGenerationJob jobs store jobId backendResult newArtifactId
      now ttlMs).1 jobId = some r ∧ isTerminalJobStatus r.status = true := by
  have hJ1 : lookupKey (updateJobStatus jobs jobId
      { status := some .running, errorMessage := some Option.none } now) jobId =
      some (applyJobUpdate J
        { status := some .running, errorMessage := some Option.none } now) :=
    updateJobStatus_lookup _ now hlook
  simp only [runImageGenerationJob, hlook]
  repeat' split
  all_goals first
    | exact ⟨_, failJob_lookup _ now hJ1, rfl⟩
    | exact ⟨_, updateJobStatus_lookup _ now hJ1, rfl⟩

/-! ## Terminal jobs (C5) -/

/-- C5 counterexample: `updateJobStatus` has no terminal guard — an attempted
update on a `succeeded` job changes its observable `status` field (to
`running` here), contradicting "leaves every observable field of the job
except updatedAt unchanged (the job never transitions out of a terminal
status)". -/
theorem claim_C5_counterexample :
    sampleSucceededJob.status = .succeeded ∧
      (lookupKey (updateJobStatus sampleTerminalJobs "job1"
        { status := some .running } 99) "job1").map (fun r => r.status) =
        some .running := by
  decide

/-- C5 (amended): once terminal, repeated `get` polls return the same
snapshot, and the implemented run path only ever drives a job into a terminal
status; but `updateJobStatus` itself applies whatever partial update it is
given regardless of the current status — only a call carrying no fields
changes nothing but `updatedAtUnixMs`. -/
theorem claim_C5_terminal_jobs (jobs : JobMap) (jobId : String)
    (J : ImageGenerationJobRecord) (now now2 : Nat) (u : JobUpdate)
    (hlook : lookupKey jobs jobId = some J)
    (_hterm : isTerminalJobStatus J.status = true)
    (hexp : now < J.expiresAtUnixMs)
    (hid : jobId ≠ "") :
    (getImageGenerationJob jobs jobId now).1 = .ok J ∧
    (getImageGenerationJob (getImageGenerationJob jobs jobId now).2 jobId now).1 =
      .ok J ∧
    lookupKey (updateJobStatus jobs jobId u now2) jobId =
      some (applyJobUpdate J u now2) ∧
    applyJobUpdate J {} now2 = { J with updatedAtUnixMs := now2 } ∧
    (∀ (store : StoreState) (backendResult : Except String (List Nat))
      (newArtifactId : String) (ttlMs : Nat), ∃ r,
      lookupKey (runImageGenerationJob jobs store jobId backendResult newArtifactId
        now2 ttlMs).1 jobId = some r ∧ isTerminalJobStatus r.status = true) := by
  have h0 : lookupKey (cleanupExpiredImageGenerationJobs jobs now) jobId = some J :=
    lookupKey_cleanup_of_live hlook hexp
  have h1 : getImageGenerationJob jobs jobId now =
      (.ok J, cleanupExpiredImageGenerationJobs jobs now) := by
    simp only [getImageGenerationJob, if_neg hid, h0]
  have h0' : lookupKey (cleanupExpiredImageGenerationJobs
      (cleanupExpiredImageGenerationJobs jobs now) now) jobId = some J :=
    lookupKey_cleanup_of_live h0 hexp
  refine ⟨by rw [h1], ?_, updateJobStatus_lookup u now2 hlook, rfl, ?_⟩
  · rw [h1]
    simp only [getImageGenerationJob, if_neg hid, h0']
  · intro store backendResult newArtifactId ttlMs
    exact runImageGenerationJob_terminal jobs store jobId backendResult newArtifactId
      now2 ttlMs J hlook

/-- C5 witness: the amended statement at the concrete terminal job map. -/
theorem claim_C5_terminal_jobs_witness :
    (getImageGenerationJob sampleTerminalJobs "job1" 500).1 = .ok sampleSucceededJob ∧
      applyJobUpdate sampleSucceededJob {} 600 =
        { sampleSucceededJob with updatedAtUnixMs := 600 } := by
  have h := claim_C5_terminal_jobs sampleTerminalJobs "job1" sampleSucceededJob 500 600
    {} (by decide) (by decide) (by decide) (by decide)
  exact ⟨h.1, h.2.2.2.1⟩

/-! ## Start-request validation (C6) -/

theorem lookupKey_filter_none {α : Type} {l : List (String × α)} {k : String}
    (p : String × α → Bool) (h : lookupKey l k = none) :
    lookupKey (l.filter p) k = none := by
  rw [lookupKey_eq_none_iff] at h ⊢
  intro e he
  exact h e (List.mem_of_mem_filter he)

/-- C6 counterexample: a start request whose source artifact does not resolve
fails with 404 and creates no job, but the job index is not left unchanged —
the handler's expiry cleanup removed an already-expired job on the way. -/
theorem claim_C6_counterexample :
    (startImageToSplatJob sampleExpiredJobs sampleStoreEmpty sampleStartBodyMissing
      "newjob" 200 1000).1 =
      .notFound "Source image artifact was not found or has expired." ∧
    (startImageToSplatJob sampleExpiredJobs sampleStoreEmpty sampleStartBodyMissing
      "newjob" 200 1000).2.1 = [] ∧
    sampleExpiredJobs ≠ [] := by
  decide

/-- C6 (amended): a start request with a missing/empty id, an unresolvable
source artifact, or a non-image source fails synchronously with a client
error (400/404) and inserts no job record — the job index afterwards is
exactly the routinely-cleaned index (expired jobs removed), with nothing
added; and `get` for any id never inserted reports not-found. -/
theorem claim_C6_start_validation (jobs : JobMap) (store : StoreState)
    (body : StartRequestBody) (jobId : String) (now jobTtlMs : Nat) :
    ((body.imageArtifactId = .nonString ∨
        (∃ aid, body.imageArtifactId = .str aid ∧ (jsTrim aid).length = 0)) →
      ∃ msg, (startImageToSplatJob jobs store body jobId now jobTtlMs).1 =
          .badRequest msg ∧
        (startImageToSplatJob jobs store body jobId now jobTtlMs).2.1 =
          cleanupExpiredImageGenerationJobs jobs now) ∧
    (∀ aid, body.imageArtifactId = .str aid → (jsTrim aid).length ≠ 0 →
      (getArtifactIfAvailable store aid now).1 = none →
      (startImageToSplatJob jobs store body jobId now jobTtlMs).1 =
        .notFound "Source image artifact was not found or has expired." ∧
      (startImageToSplatJob jobs store body jobId now jobTtlMs).2.1 =
        cleanupExpiredImageGenerationJobs jobs now) ∧
    (∀ aid art, body.imageArtifactId = .str aid → (jsTrim aid).length ≠ 0 →
      (getArtifactIfAvailable store aid now).1 = some art →
      stringStartsWith (String.toLower art.mimeType) "image/" = false →
      (∃ msg, (startImageToSplatJob jobs store body jobId now jobTtlMs).1 =
        .badRequest msg) ∧
      (startImageToSplatJob jobs store body jobId now jobTtlMs).2.1 =
        cleanupExpiredImageGenerationJobs jobs now) ∧
    (∀ jid, jid ≠ "" → lookupKey jobs jid = none →
      (getImageGenerationJob jobs jid now).1 = .notFound) := by
  refine ⟨?_, ?_, ?_, ?_⟩
  · rintro (hns | ⟨aid, hstr, hlen⟩)
    · exact ⟨"imageArtifactId is required to start image-to-splat generation.",
        by simp [startImageToSplatJob, hns], by simp [startImageToSplatJob, hns]⟩
    · exact ⟨"imageArtifactId is required to start image-to-splat generation.",
        by simp [startImageToSplatJob, hstr, hlen],
        by simp [startImageToSplatJob, hstr, hlen]⟩
  · intro aid hstr hlen hget
    rcases hg : getArtifactIfAvailable store aid now with ⟨res, st1⟩
    rw [hg] at hget
    simp only at hget
    subst hget
    constructor
    · simp [startImageToSplatJob, hstr, hlen, hg]
    · simp [startImageToSplatJob, hstr, hlen, hg]
  · intro aid art hstr hlen hget hmime
    rcases hg : getArtifactIfAvailable store aid now with ⟨res, st1⟩
    rw [hg] at hget
    simp only at hget
    subst hget
    constructor
    · exact ⟨"Source artifact must be an image. Received mimeType=" ++ art.mimeType ++
        ".", by simp [startImageToSplatJob, hstr, hlen, hg, hmime]⟩
    · simp [startImageToSplatJob, hstr, hlen, hg, hmime]
  · intro jid hjid hnone
    have h0 : lookupKey (cleanupExpiredImageGenerationJobs jobs now) jid = none :=
      lookupKey_filter_none _ hnone
    simp [getImageGenerationJob, hjid, h0]

/-- C6 witness: the amended statement at the concrete failing request. -/
theorem claim_C6_start_validation_witness :
    (startImageToSplatJob sampleExpiredJobs sampleStoreEmpty sampleStartBodyMissing
      "newjob" 200 1000).1 =
      .notFound "Source image artifact was not found or has expired." ∧
    (getImageGenerationJob sampleExpiredJobs "fabricated" 200).1 = .notFound := by
  have h := claim_C6_start_validation sampleExpiredJobs sampleStoreEmpty
    sampleStartBodyMissing "newjob" 200 1000
  exact ⟨(h.2.1 "missing" rfl (by decide) (by decide)).1,
    h.2.2.2 "fabricated" (by decide) (by decide)⟩

/-! ## GPU tier resolution (C10) -/

/-- C10: the supplied gpuTier can never cause a start request to be rejected —
the accept/reject outcome is independent of the gpuTier field; a non-string
or unrecognized string silently resolves to the default tier "l4", and an
accepted job carries the resolved tier. -/
theorem claim_C10_gpu_tier (v w : JsValue) (jobs : JobMap) (store : StoreState)
    (body : StartRequestBody) (jobId : String) (now jobTtlMs : Nat) :
    allowedGpuTierValues.contains (resolveGpuTier v) = true ∧
    (∀ s, v = .str s → allowedGpuTierValues.contains s = false →
      resolveGpuTier v = "l4") ∧
    resolveGpuTier .nonString = "l4" ∧
    startRespKind (startImageToSplatJob jobs store { body with gpuTier := v } jobId
        now jobTtlMs).1 =
      startRespKind (startImageToSplatJob jobs store { body with gpuTier := w } jobId
        now jobTtlMs).1 ∧
    (∀ rec, (startImageToSplatJob jobs store { body with gpuTier := v } jobId now
        jobTtlMs).1 = .accepted rec →
      rec.gpuTier = resolveGpuTier v ∧
      lookupKey (startImageToSplatJob jobs store { body with gpuTier := v } jobId now
        jobTtlMs).2.1 jobId = some rec) := by
  refine ⟨?_, ?_, rfl, ?_, ?_⟩
  · cases v with
    | nonString => decide
    | str s =>
      simp only [resolveGpuTier]
      by_cases h : allowedGpuTierValues.contains s = true
      · rw [if_pos h]; exact h
      · rw [if_neg h]; decide
  · intro s hv hno
    subst hv
    have hs : s ∉ allowedGpuTierValues := by simpa using hno
    simp [resolveGpuTier, hs, DEFAULT_IMAGE_GENERATION_GPU_TIER]
  · cases hb : body.imageArtifactId with
    | nonString => simp [startImageToSplatJob, hb, startRespKind]
    | str aid =>
      by_cases hlen : (jsTrim aid).length = 0
      · simp [startImageToSplatJob, hb, hlen, startRespKind]
      · rcases hg : getArtifactIfAvailable store aid now with ⟨res, st1⟩
        cases res with
        | none => simp [startImageToSplatJob, hb, hlen, hg, startRespKind]
        | some art =>
          by_cases hm : stringStartsWith (String.toLower art.mimeType) "image/" = true
          · simp [startImageToSplatJob, hb, hlen, hg, hm, startRespKind]
          · simp only [Bool.not_eq_true] at hm
            simp [startImageToSplatJob, hb, hlen, hg, hm, startRespKind]
  · intro rec hacc
    cases hb : body.imageArtifactId with
    | nonString => rw [hb] at hacc; simp [startImageToSplatJob, hb] at hacc
    | str aid =>
      by_cases hlen : (jsTrim aid).length = 0
      · simp [startImageToSplatJob, hb, hlen] at hacc
      · rcases hg : getArtifactIfAvailable store aid now with ⟨res, st1⟩
        cases res with
        | none => simp [startImageToSplatJob, hb, hlen, hg] at hacc
        | some art =>
          by_cases hm : stringStartsWith (String.toLower art.mimeType) "image/" = true
          · simp only [startImageToSplatJob, hb, hg] at hacc
            rw [if_neg hlen, if_neg (by simp [hm])] at hacc
            simp only [StartJobResponse.accepted.injEq] at hacc
            subst hacc
            refine ⟨rfl, ?_⟩
            simp only [startImageToSplatJob, hb, hg]
            rw [if_neg hlen, if_neg (by simp [hm])]
            exact lookupKey_setKey_self _ _ _
          · simp only [Bool.not_eq_true] at hm
            simp [startImageToSplatJob, hb, hlen, hg, hm] at hacc

/-- C10 witness: an unrecognized and a non-string gpuTier both resolve to
"l4", and gpuTier never changes the response kind at a concrete request. -/
theorem claim_C10_gpu_tier_witness :
    resolveGpuTier (.str "banana") = "l4" ∧
      startRespKind (startImageToSplatJob sampleExpiredJobs sampleStoreEmpty
        { sampleStartBodyMissing with gpuTier := .str "banana" } "newjob" 200 1000).1 =
      startRespKind (startImageToSplatJob sampleExpiredJobs sampleStoreEmpty
        { sampleStartBodyMissing with gpuTier := .str "h100" } "newjob" 200 1000).1 := by
  have h := claim_C10_gpu_tier (.str "banana") (.str "h100") sampleExpiredJobs
    sampleStoreEmpty sampleStartBodyMissing "newjob" 200 1000
  exact ⟨h.2.1 "banana" rfl (by decide), h.2.2.2.1⟩

/-! ## Restart durability (C8) -/

theorem ne_metadataFileName_of_not_endsWith (q x : String)
    (h : stringEndsWith q metaSuffix = false) : q ≠ metadataFileName x := by
  intro he
  rw [he] at h
  rw [stringEndsWith_metadataFileName x] at h
  simp at h

theorem mem_of_mem_deleteArtifact_disk {st : StoreState} {idn : String}
    {e : String × FileContent} (h : e ∈ (deleteArtifact st idn).disk) : e ∈ st.disk := by
  cases hr : resolveStoredArtifact st idn with
  | none =>
    rw [deleteArtifact_disk_of_resolve_none hr] at h
    exact mem_of_mem_eraseKey h
  | some a =>
    rw [deleteArtifact_disk_of_resolve_some hr] at h
    exact mem_of_mem_eraseKey (mem_of_mem_eraseKey h)

theorem readArtifactMetadataFromDisk_some {st : StoreState} {idn : String}
    {dm : StoredArtifact} (h : readArtifactMetadataFromDisk st idn = some dm) :
    ∃ rec, lookupKey st.disk (metadataFileName idn) = some (.meta rec) ∧
      dm = { rec with artifactId := idn } := by
  simp only [readArtifactMetadataFromDisk] at h
  cases hl : lookupKey st.disk (metadataFileName idn) with
  | none => rw [hl] at h; simp at h
  | some fc =>
    cases fc with
    | bytes c => rw [hl] at h; simp at h
    | junk => rw [hl] at h; simp at h
    | meta rec =>
      rw [hl] at h
      simp only [Option.some.injEq] at h
      exact ⟨rec, rfl, h.symm⟩

theorem hydrateLoop_append (xs ys : List String) (st : StoreState) (now : Nat) :
    hydrateLoop (xs ++ ys) st now = hydrateLoop ys (hydrateLoop xs st now) now := by
  induction xs generalizing st with
  | nil => rfl
  | cons n t ih =>
    simp only [List.cons_append, hydrateLoop]
    exact ih _

theorem deleteArtifact_restartInv (A : StoredArtifact) (artifactBytes : List Nat)
    (st : StoreState) (idn : String)
    (hInv : restartInv A artifactBytes st)
    (hidn : idn ≠ A.artifactId)
    (hshape : stringEndsWith A.absoluteFilePath metaSuffix = false) :
    restartInv A artifactBytes (deleteArtifact st idn) := by
  obtain ⟨hp, hm, hsub, hreg⟩ := hInv
  have hpne : A.absoluteFilePath ≠ metadataFileName idn :=
    ne_metadataFileName_of_not_endsWith _ _ hshape
  have hmne : metadataFileName A.artifactId ≠ metadataFileName idn := by
    intro h
    exact hidn (metadataFileName_injective h).symm
  have hres : ∀ a, resolveStoredArtifact st idn = some a →
      a.absoluteFilePath ≠ A.absoluteFilePath ∧
      a.absoluteFilePath ≠ metadataFileName A.artifactId := by
    intro a ha
    simp only [resolveStoredArtifact] at ha
    cases hr : lookupKey st.registry idn with
    | some b =>
      rw [hr] at ha
      simp only [Option.some.injEq] at ha
      subst ha
      exact hreg (idn, b) (mem_of_lookupKey_some hr)
    | none =>
      rw [hr] at ha
      obtain ⟨rec, hl, hdm⟩ := readArtifactMetadataFromDisk_some ha
      have hkeyne : metadataFileName idn ≠ metadataFileName A.artifactId := fun h =>
        hidn (metadataFileName_injective h)
      have := hsub (metadataFileName idn, .meta rec) (mem_of_lookupKey_some hl)
        hkeyne rec rfl
      rw [hdm]
      exact this
  refine ⟨?_, ?_, ?_, ?_⟩
  · rw [deleteArtifact_disk_preserved st idn A.absoluteFilePath hpne
      (fun a ha => (hres a ha).1)]
    exact hp
  · rw [deleteArtifact_disk_preserved st idn (metadataFileName A.artifactId) hmne
      (fun a ha => (hres a ha).2)]
    exact hm
  · intro e he hne rec hrec
    exact hsub e (mem_of_mem_deleteArtifact_disk he) hne rec hrec
  · intro e he
    rw [deleteArtifact_registry] at he
    exact hreg e (mem_of_mem_eraseKey he)

theorem hydrateStep_restartInv (A : StoredArtifact) (artifactBytes : List Nat)
    (st : StoreState) (n : String) (now' : Nat)
    (hInv : restartInv A artifactBytes st)
    (hn : n ≠ metadataFileName A.artifactId)
    (hshape : stringEndsWith A.absoluteFilePath metaSuffix = false) :
    restartInv A artifactBytes (hydrateStep st n now') := by
  simp only [hydrateStep]
  by_cases hns : stringEndsWith n metaSuffix = true
  · rw [if_pos hns]
    have hn_eq : n = metadataFileName (stringDropRight n metaSuffix.length) :=
      eq_metadataFileName_of_endsWith hns
    have hidn : stringDropRight n metaSuffix.length ≠ A.artifactId := by
      intro h
      apply hn
      rw [hn_eq, h]
    have hpn : A.absoluteFilePath ≠ n := by
      intro h
      rw [← h] at hns
      rw [hshape] at hns
      exact Bool.false_ne_true hns
    have hmn : metadataFileName A.artifactId ≠ n := Ne.symm hn
    cases hrm : readArtifactMetadataFromDisk st (stringDropRight n metaSuffix.length) with
    | none =>
      obtain ⟨hp, hm, hsub, hreg⟩ := hInv
      refine ⟨?_, ?_, ?_, hreg⟩
      · rw [lookupKey_eraseKey_ne _ _ _ hpn]
        exact hp
      · rw [lookupKey_eraseKey_ne _ _ _ hmn]
        exact hm
      · intro e he hne rec hrec
        exact hsub e (mem_of_mem_eraseKey he) hne rec hrec
    | some dm =>
      show restartInv A artifactBytes
        (if dm.expiresAtUnixMs ≤ now' then
          deleteArtifact st (stringDropRight n metaSuffix.length)
        else
          match lookupKey st.disk dm.absoluteFilePath with
          | some _ =>
            { st with registry := setKey st.registry (stringDropRight n metaSuffix.length) dm }
          | none => deleteArtifact st (stringDropRight n metaSuffix.length))
      by_cases hexp : dm.expiresAtUnixMs ≤ now'
      · rw [if_pos hexp]
        exact deleteArtifact_restartInv A artifactBytes st _ hInv hidn hshape
      · rw [if_neg hexp]
        cases hstat : lookupKey st.disk dm.absoluteFilePath with
        | none => exact deleteArtifact_restartInv A artifactBytes st _ hInv hidn hshape
        | some fc =>
          obtain ⟨hp, hm, hsub, hreg⟩ := hInv
          refine ⟨hp, hm, hsub, ?_⟩
          intro e he
          rcases mem_of_mem_setKey he with h1 | h1
          · exact hreg e h1
          · subst h1
            obtain ⟨rec, hl, hdm⟩ := readArtifactMetadataFromDisk_some hrm
            have hkeyne : metadataFileName (stringDropRight n metaSuffix.length) ≠
                metadataFileName A.artifactId := fun h =>
              hidn (metadataFileName_injective h)
            have := hsub (metadataFileName (stringDropRight n metaSuffix.length),
              .meta rec) (mem_of_lookupKey_some hl) hkeyne rec rfl
            simpa [hdm] using this
  · rw [if_neg hns]
    exact hInv

theorem hydrateLoop_restartInv (A : StoredArtifact) (artifactBytes : List Nat)
    (hshape : stringEndsWith A.absoluteFilePath metaSuffix = false) :
    ∀ (names : List String) (st : StoreState) (now' : Nat),
      (∀ n ∈ names, n ≠ metadataFileName A.artifactId) →
      restartInv A artifactBytes st →
      restartInv A artifactBytes (hydrateLoop names st now') := by
  intro names
  induction names with
  | nil => intro st now' _ hInv; exact hInv
  | cons n t ih =>
    intro st now' hsafe hInv
    rw [hydrateLoop]
    exact ih _ now' (fun x hx => hsafe x (List.mem_cons_of_mem n hx))
      (hydrateStep_restartInv A artifactBytes st n now' hInv
        (hsafe n (List.mem_cons_self n t)) hshape)

theorem hydrateStep_meta_restartInv (A : StoredArtifact) (artifactBytes : List Nat)
    (st : StoreState) (now' : Nat)
    (hInv : restartInv A artifactBytes st)
    (hexp : now' < A.expiresAtUnixMs) :
    hydrateStep st (metadataFileName A.artifactId) now' =
      { st with registry := setKey st.registry A.artifactId A } := by
  have hrm : readArtifactMetadataFromDisk st A.artifactId = some A := by
    simp only [readArtifactMetadataFromDisk, hInv.2.1]
  simp only [hydrateStep, stringEndsWith_metadataFileName, if_true,
    stringDropRight_metadataFileName, hrm]
  rw [if_neg (by omega : ¬ A.expiresAtUnixMs ≤ now')]
  simp only [hInv.1]

theorem get_after_meta_step (A : StoredArtifact) (artifactBytes : List Nat)
    (stN : StoreState) (now' : Nat)
    (hInvN : restartInv A artifactBytes stN) (hexp : now' < A.expiresAtUnixMs) :
    (getArtifactIfAvailable (hydrateStep stN (metadataFileName A.artifactId) now')
      A.artifactId now').1 = some A := by
  rw [hydrateStep_meta_restartInv A artifactBytes stN now' hInvN hexp]
  have hres : resolveStoredArtifact
      { stN with registry := setKey stN.registry A.artifactId A } A.artifactId =
      some A := by
    simp [resolveStoredArtifact, lookupKey_setKey_self]
  simp only [getArtifactIfAvailable, hres]
  rw [if_neg (by omega : ¬ A.expiresAtUnixMs ≤ now')]
  simp only [hInvN.1]

/-- C8: create artifact A (with a fresh id and a data-file name that is not
sidecar-shaped, and no other record on disk claiming A's paths), discard the
in-memory index, run `initialize()`, and `get(A.id)` at any time before A's
expiry returns an artifact equal to A in every field — the sidecar record
round-trips through disk persistence. -/
theorem claim_C8_restart_durability (s : StoreState) (id : String)
    (artifactBytes : List Nat) (ext mime disp : String) (now ttl now' : Nat)
    (h1 : lookupKey s.disk (dataFileName id ext) = none)
    (h2 : lookupKey s.disk (metadataFileName id) = none)
    (h3 : stringEndsWith (dataFileName id ext) metaSuffix = false)
    (h4 : ∀ e ∈ s.disk, ∀ rec, e.2 = FileContent.meta rec →
      rec.absoluteFilePath ≠ dataFileName id ext ∧
      rec.absoluteFilePath ≠ metadataFileName id)
    (h5 : now' < now + ttl) :
    ∃ A : StoredArtifact,
      (createArtifactFromBytes s id artifactBytes ext mime disp now ttl .none).1 =
        .ok A ∧
      A.artifactId = id ∧ A.absoluteFilePath = dataFileName id ext ∧
      A.expiresAtUnixMs = now + ttl ∧ A.mimeType = mime ∧
      A.fileSizeBytes = artifactBytes.length ∧ A.displayName = disp ∧
      (getArtifactIfAvailable
        (initializeStore
          { registry := [],
            disk := (createArtifactFromBytes s id artifactBytes ext mime disp now ttl
              .none).2.disk } now') id now').1 = some A := by
  have hpm : dataFileName id ext ≠ metadataFileName id :=
    ne_metadataFileName_of_not_endsWith _ _ h3
  refine ⟨{ artifactId := id, absoluteFilePath := dataFileName id ext,
            expiresAtUnixMs := now + ttl, mimeType := mime,
            fileSizeBytes := artifactBytes.length, displayName := disp },
          rfl, rfl, rfl, rfl, rfl, rfl, rfl, ?_⟩
  have hl1 : lookupKey
      (s.disk ++ [(dataFileName id ext, FileContent.bytes artifactBytes)])
      (metadataFileName id) = none := by
    rw [lookupKey_append, h2]
    simp [lookupKey_cons, lookupKey_nil, hpm]
  have hD : (createArtifactFromBytes s id artifactBytes ext mime disp now ttl
      .none).2.disk =
      (s.disk ++ [(dataFileName id ext, FileContent.bytes artifactBytes)]) ++
        [(metadataFileName id, FileContent.meta
          { artifactId := id, absoluteFilePath := dataFileName id ext,
            expiresAtUnixMs := now + ttl, mimeType := mime,
            fileSizeBytes := artifactBytes.length, displayName := disp })] := by
    show setKey (setKey s.disk (dataFileName id ext) (FileContent.bytes artifactBytes))
      (metadataFileName id) _ = _
    rw [setKey_of_lookup_none _ _ _ h1]
    exact setKey_of_lookup_none _ _ _ hl1
  rw [hD]
  have hkeys : ((s.disk ++ [(dataFileName id ext, FileContent.bytes artifactBytes)]) ++
      [(metadataFileName id, FileContent.meta
        { artifactId := id, absoluteFilePath := dataFileName id ext,
          expiresAtUnixMs := now + ttl, mimeType := mime,
          fileSizeBytes := artifactBytes.length, displayName := disp })]).map
        (fun e => e.1) =
      (s.disk.map (fun e => e.1) ++ [dataFileName id ext]) ++ [metadataFileName id] := by
    simp
  have hInv0 : restartInv
      { artifactId := id, absoluteFilePath := dataFileName id ext,
        expiresAtUnixMs := now + ttl, mimeType := mime,
        fileSizeBytes := artifactBytes.length, displayName := disp } artifactBytes
      { registry := [],
        disk := (s.disk ++ [(dataFileName id ext, FileContent.bytes artifactBytes)]) ++
          [(metadataFileName id, FileContent.meta
            { artifactId := id, absoluteFilePath := dataFileName id ext,
              expiresAtUnixMs := now + ttl, mimeType := mime,
              fileSizeBytes := artifactBytes.length, displayName := disp })] } := by
    refine ⟨?_, ?_, ?_, ?_⟩
    · show lookupKey _ (dataFileName id ext) = _
      rw [lookupKey_append]
      have hin : lookupKey
          (s.disk ++ [(dataFileName id ext, FileContent.bytes artifactBytes)])
          (dataFileName id ext) = some (FileContent.bytes artifactBytes) := by
        rw [lookupKey_append, h1]
        simp [lookupKey_cons]
      rw [hin]
    · show lookupKey _ (metadataFileName id) = _
      rw [lookupKey_append, hl1]
      simp [lookupKey_cons]
    · intro e he hne rec hrec
      rcases List.mem_append.mp he with he1 | he2
      · rcases List.mem_append.mp he1 with hs | hp1
        · exact h4 e hs rec hrec
        · simp only [List.mem_singleton] at hp1
          subst hp1
          simp at hrec
      · simp only [List.mem_singleton] at he2
        subst he2
        simp at hne
    · intro e he
      simp at he
  have hsafe : ∀ n ∈ s.disk.map (fun e => e.1) ++ [dataFileName id ext],
      n ≠ metadataFileName id := by
    intro n hn
    rcases List.mem_append.mp hn with h | h
    · obtain ⟨e, he, rfl⟩ := List.mem_map.mp h
      exact (lookupKey_eq_none_iff _ _).mp h2 e he
    · simp only [List.mem_singleton] at h
      subst h
      exact hpm
  show (getArtifactIfAvailable (hydrateArtifactRegistryFromDisk _ now') id now').1 = _
  simp only [hydrateArtifactRegistryFromDisk]
  rw [hkeys, hydrateLoop_append]
  rw [show ∀ st : StoreState, hydrateLoop [metadataFileName id] st now' =
    hydrateStep st (metadataFileName id) now' from fun st => rfl]
  exact get_after_meta_step _ artifactBytes _ now'
    (hydrateLoop_restartInv _ artifactBytes h3 _ _ now' hsafe hInv0) h5

/-- C8 witness: a concrete create → restart → initialize → get round-trip. -/
theorem claim_C8_restart_durability_witness :
    ∃ A : StoredArtifact,
      (createArtifactFromBytes sampleStoreEmpty "a" [1, 2, 3] ".ply" "image/png" "pic"
        0 1000 .none).1 = .ok A ∧
      A.artifactId = "a" ∧ A.absoluteFilePath = dataFileName "a" ".ply" ∧
      A.expiresAtUnixMs = 0 + 1000 ∧ A.mimeType = "image/png" ∧
      A.fileSizeBytes = [1, 2, 3].length ∧ A.displayName = "pic" ∧
      (getArtifactIfAvailable
        (initializeStore
          { registry := [],
            disk := (createArtifactFromBytes sampleStoreEmpty "a" [1, 2, 3] ".ply"
              "image/png" "pic" 0 1000 .none).2.disk } 500) "a" 500).1 = some A :=
  claim_C8_restart_durability sampleStoreEmpty "a" [1, 2, 3] ".ply" "image/png" "pic"
    0 1000 500 (by decide) (by decide) (by decide) (by simp [sampleStoreEmpty])
    (by decide)

end SplatSpec
